import Mathlib

/-!
# The caicloud-cla pull-request handler

A shallow embedding of `prow/plugins/caicloud-cla/cla.go`.

* Go strings are Lean `String`s, Go `int` is `Int` (the handler only copies numbers around).
* A Go `error` is an `Option Error`, `none` being `nil`.
* A Go pointer result (`*github.PullRequest`, `*github.CommitData`) is an `Option`,
  `none` being the nil pointer; dereferencing it is the outcome `Outcome.panicked`.
* The injected client is a record of functions from the arguments of a call to what the
  call returns.  Every method is called at most once in an invocation, so this covers a
  stateful client as well.
* The handler returns the ordered list of effects it performs (client calls and log
  entries) together with how it ends.
-/

/-- A Go `error` value that is not nil, reduced to its message. -/
abbrev Error := String

namespace github

/-- Of `github.User`, the field the handler reads. -/
structure User where
  Login : String
deriving DecidableEq, Repr, Inhabited

/-- Of `github.Repo`, the fields the handler reads. -/
structure Repo where
  Owner : User
  Name : String
deriving DecidableEq, Repr, Inhabited

/-- Of `github.PullRequestBranch`, the fields the handler reads. -/
structure PullRequestBranch where
  SHA : String
  Repo : Repo
deriving DecidableEq, Repr, Inhabited

/-- Of `github.PullRequest`, the fields the handler reads. -/
structure PullRequest where
  Number : Int
  User : User
  Base : PullRequestBranch
  Head : PullRequestBranch
deriving DecidableEq, Repr, Inhabited

/-- The type `github.PullRequestEventAction` is a Go string type. -/
abbrev PullRequestEventAction := String

/-- Modelled from the spec: the constant `github.PullRequestActionOpened` of the github
package, which `isPRChanged` switches on and which is declared outside this plugin. -/
def PullRequestActionOpened : PullRequestEventAction := "opened"

/-- Modelled from the spec: the constant `github.PullRequestActionReopened`, declared
outside this plugin. -/
def PullRequestActionReopened : PullRequestEventAction := "reopened"

/-- Modelled from the spec: the constant `github.PullRequestActionSynchronize`, declared
outside this plugin. -/
def PullRequestActionSynchronize : PullRequestEventAction := "synchronize"

/-- Modelled from the spec: the constant `github.PullRequestActionEdited`, declared
outside this plugin. -/
def PullRequestActionEdited : PullRequestEventAction := "edited"

/-- Of `github.PullRequestEvent`, the fields the handler reads. -/
structure PullRequestEvent where
  Action : PullRequestEventAction
  PullRequest : PullRequest
deriving DecidableEq, Repr, Inhabited

/-- The author identity of a commit (`github.Author`). -/
structure Author where
  Name : String
  Email : String
deriving DecidableEq, Repr, Inhabited

/-- The committer identity of a commit (`github.Committer`). -/
structure Committer where
  Name : String
  Email : String
deriving DecidableEq, Repr, Inhabited

/-- Of `github.CommitData`, the fields the handler reads. -/
structure CommitData where
  Author : Author
  Committer : Committer
deriving DecidableEq, Repr, Inhabited

/-- Of `github.Label`, the field the handler reads. -/
structure Label where
  Name : String
deriving DecidableEq, Repr, Inhabited

end github

namespace regexp

/-- The syntax tree Go's `regexp/syntax` builds, restricted to the operators that occur
in the pattern of `emailRe`. -/
inductive Regexp where
  /-- The operator `.` without the `s` flag: any character except a newline. -/
  | anyCharNotNL
  /-- A run of literal characters. -/
  | literal (runes : List Char)
  /-- The operator `$` without the `m` flag: the end of the text. -/
  | endText
  /-- The operator `*`. -/
  | star (sub : Regexp)
  /-- Two expressions one after the other. -/
  | concat (first second : Regexp)
deriving Repr

/-- Iterating a one-step matcher: the input itself, and what is left after one more
round from anything reached that consumed at least one character.  The first argument
bounds the number of rounds; the length of the input is enough. -/
def starEnds (step : List Char → List (List Char)) : Nat → List Char → List (List Char)
  | 0, s => [s]
  | n + 1, s =>
    s :: (((step s).filter (fun t => decide (t.length < s.length))).map (starEnds step n)).flatten

/-- All the ways an expression matches at the start of `s`, each given by what of `s`
remains after the match. -/
def Regexp.ends : Regexp → List Char → List (List Char)
  | .anyCharNotNL => fun s =>
    match s with
    | [] => []
    | c :: rest => if c = Char.ofNat 10 then [] else [rest]
  | .literal runes => fun s => if runes.isPrefixOf s then [s.drop runes.length] else []
  | .endText => fun s => if s.isEmpty then [s] else []
  | .star sub => fun s => starEnds sub.ends s.length s
  | .concat first second => fun s => ((first.ends s).map second.ends).flatten

/-- The method `(*Regexp).MatchString`: whether the text contains a match, starting at
any position. -/
def Regexp.MatchString (re : Regexp) (s : String) : Bool :=
  s.toList.tails.any (fun t => !(re.ends t).isEmpty)

end regexp

namespace caicloudcla

open regexp

def githubName : String := "GitHub"

def botName : String := "caicloud-bot"

def pluginName : String := "caicloud-cla"

def claYesLabel : String := "caicloud-cla: yes"

def claNoLabel : String := "caicloud-cla: no"

/-- The format string of the comment; its only verb is one `%s`. -/
def caicloudclaNotFoundMessage : String :=
  "Thanks for your pull request. Before we can look at your pull request, you\x27ll need to finish a Contributor License Agreement (CLA).\n\n:memo: **Please follow instructions at <https://github.com/caicloud/engineering/blob/master/docs/CLA.md> to complete the CLA.**\n\n<details>\n\n%s\n</details>\n\t"

def maxRetries : Nat := 5

/-- The value of `regexp.MustCompile` on the pattern of line 32: `.*`, then the literal
`@caicloud.io` (the escaped dot is a literal dot), then `$`. -/
def emailRe : Regexp :=
  .concat (.star .anyCharNotNL) (.concat (.literal "@caicloud.io".toList) .endText)

/-- The call `fmt.Sprintf(format, a)` for a format whose only verb is one `%s`: the
argument takes the place of the verb. -/
def Sprintf : List Char → String → List Char
  | [], _ => []
  | [c], _ => [c]
  | c :: d :: rest, a =>
    if c = '%' ∧ d = 's' then a.toList ++ rest
    else c :: Sprintf (d :: rest) a

/-- The interface `githubClient`: for each method, what it returns on given arguments.
A result pair of Go is a pair here, whose two parts the handler reads separately. -/
structure githubClient where
  CreateComment : String → String → Int → String → Option Error
  AddLabel : String → String → Int → String → Option Error
  RemoveLabel : String → String → Int → String → Option Error
  GetIssueLabels : String → String → Int → List github.Label × Option Error
  GetPullRequest : String → String → Int → Option github.PullRequest × Option Error
  GetCommit : String → String → String → Option github.CommitData × Option Error
  IsMember : String → String → Bool × Option Error

/-- A call of a client method with its arguments. -/
inductive Call where
  | CreateComment (owner repo : String) (number : Int) (comment : String)
  | AddLabel (owner repo : String) (number : Int) (label : String)
  | RemoveLabel (owner repo : String) (number : Int) (label : String)
  | GetIssueLabels (org repo : String) (number : Int)
  | GetPullRequest (owner repo : String) (number : Int)
  | GetCommit (owner repo sha : String)
  | IsMember (org user : String)
deriving DecidableEq, Repr

/-- The levels of the logrus calls the handler makes. -/
inductive Level where
  | info
  | warning
  | error
deriving DecidableEq, Repr

/-- One entry written to the logger: its level, the error attached with `WithError`, the
format string and the arguments, not yet formatted. -/
structure LogEntry where
  level : Level
  err : Option Error
  format : String
  args : List String
deriving DecidableEq, Repr

/-- What the handler does to the outside, in order. -/
inductive Effect where
  | call (c : Call)
  | log (e : LogEntry)
deriving DecidableEq, Repr

/-- How an invocation ends: it returns an `error` (`none` is nil), or it dereferences a
nil pointer. -/
inductive Outcome where
  | returned (err : Option Error)
  | panicked
deriving DecidableEq, Repr

/-- An invocation: its effects in order and its end. -/
structure Run where
  effects : List Effect
  outcome : Outcome
deriving DecidableEq, Repr

/-- The statement `if err := call; err != nil { log }` on a call whose error is `err`. -/
def logIf (err : Option Error) (level : Level) (withError : Bool) (format : String)
    (args : List String) : List Effect :=
  match err with
  | none => []
  | some e => [.log ⟨level, if withError then some e else none, format, args⟩]

/-- The function `isPRChanged`, lines 174-187. -/
def isPRChanged (pe : github.PullRequestEvent) : Bool :=
  if pe.Action = github.PullRequestActionOpened then true
  else if pe.Action = github.PullRequestActionReopened then true
  else if pe.Action = github.PullRequestActionSynchronize then true
  else if pe.Action = github.PullRequestActionEdited then true
  else false

/-- Lines 94-99 of `handlePR`: the value of `claReady` after the check of the commit. -/
def commitReady (commit : github.CommitData) : Bool :=
  let claReady := false
  if emailRe.MatchString commit.Author.Email then
    if commit.Committer.Email == commit.Author.Email || commit.Committer.Name == githubName
        || commit.Committer.Name == botName then
      true
    else claReady
  else claReady

/-- Lines 94-107 of `handlePR`: the value of `claReady` once the boolean returned by
`IsMember` is taken into account. -/
def claReady (commit : github.CommitData) (isMember : Bool) : Bool :=
  let claReady := commitReady commit
  if !isMember then true else claReady

/-- Lines 114-126 of `handlePR`: the loop over the labels, from the pair
`(hasCaicloudYes, hasCaicloudNo)` before the loop to the pair after it. -/
def scanLabels : List github.Label → Bool × Bool → Bool × Bool
  | [], flags => flags
  | label :: rest, (hasCaicloudYes, hasCaicloudNo) =>
    if label.Name = claYesLabel then scanLabels rest (true, hasCaicloudNo)
    else if label.Name = claNoLabel then scanLabels rest (hasCaicloudYes, true)
    else scanLabels rest (hasCaicloudYes, hasCaicloudNo)

/-- Lines 128-170 of `handlePR`: the branches on the two label flags and `claReady`. -/
def reconcile (AboutThisBot : String) (gc : githubClient) (org repo : String) (number : Int)
    (hasCaicloudYes hasCaicloudNo claReady : Bool) : Run :=
  if hasCaicloudYes && claReady then
    ⟨[.log ⟨.info, none, "PR has up-to-date %s label.", [claYesLabel]⟩], .returned none⟩
  else if hasCaicloudNo && !claReady then
    ⟨[.log ⟨.info, none, "PR has up-to-date %s label.", [claNoLabel]⟩], .returned none⟩
  else if hasCaicloudNo && claReady then
    ⟨[.call (.RemoveLabel org repo number claNoLabel)]
      ++ logIf (gc.RemoveLabel org repo number claNoLabel) .warning true
          "Could not remove %s label." [claNoLabel]
      ++ [.call (.AddLabel org repo number claYesLabel)]
      ++ logIf (gc.AddLabel org repo number claYesLabel) .warning true
          "Could not add %s label." [claYesLabel],
     .returned none⟩
  else if claReady then
    ⟨[.call (.AddLabel org repo number claYesLabel)]
      ++ logIf (gc.AddLabel org repo number claYesLabel) .warning true
          "Could not add %s label." [claYesLabel],
     .returned none⟩
  else
    let comment := String.mk (Sprintf caicloudclaNotFoundMessage.toList AboutThisBot)
    ⟨(if hasCaicloudYes then
        [.call (.RemoveLabel org repo number claYesLabel)]
          ++ logIf (gc.RemoveLabel org repo number claYesLabel) .warning true
              "Could not remove %s label." [claYesLabel]
      else [])
      ++ [.call (.CreateComment org repo number comment)]
      ++ logIf (gc.CreateComment org repo number comment) .warning true
          "Could not create CLA not found comment." []
      ++ [.call (.AddLabel org repo number claNoLabel)]
      ++ logIf (gc.AddLabel org repo number claNoLabel) .warning true
          "Could not add %s label." [claNoLabel],
     .returned none⟩

/-- The function `handlePR`, lines 65-171.  `AboutThisBot` is the constant
`plugins.AboutThisBot`, declared outside this plugin. -/
def handlePR (AboutThisBot : String) (gc : githubClient) (pe : github.PullRequestEvent) : Run :=
  if !isPRChanged pe then ⟨[], .returned none⟩
  else
    let org := pe.PullRequest.Base.Repo.Owner.Login
    let repo := pe.PullRequest.Base.Repo.Name
    let num := pe.PullRequest.Number
    let fetchPR : List Effect :=
      [.log ⟨.info, none, "PR labels may be out of date. Getting pull request info.", []⟩,
       .call (.GetPullRequest org repo num)]
    match gc.GetPullRequest org repo num with
    | (_, some err) =>
      ⟨fetchPR ++ [.log ⟨.warning, some err, "Unable to fetch PR-%d from %s/%s.",
          [toString num, org, repo]⟩], .returned none⟩
    | (none, none) => ⟨fetchPR, .panicked⟩
    | (some pr, none) =>
      let number := pr.Number
      let fetchCommit : List Effect := fetchPR ++ [.call (.GetCommit org repo pr.Head.SHA)]
      match gc.GetCommit org repo pr.Head.SHA with
      | (_, some err) =>
        ⟨fetchCommit ++ [.log ⟨.warning, some err, "Unable to get commit-%s from %s/%s.",
            [pr.Head.SHA, org, repo]⟩], .returned none⟩
      | (none, none) => ⟨fetchCommit, .panicked⟩
      | (some commit, none) =>
        let member := gc.IsMember org pr.User.Login
        let isMember := member.1
        let claReady := claReady commit isMember
        let labels := gc.GetIssueLabels org repo num
        let flags := scanLabels labels.1 (false, false)
        let hasCaicloudYes := flags.1
        let hasCaicloudNo := flags.2
        let rest := reconcile AboutThisBot gc org repo number hasCaicloudYes hasCaicloudNo claReady
        ⟨fetchCommit
          ++ [.call (.IsMember org pr.User.Login)]
          ++ logIf member.2 .error true "Error from IsMember(%q of org %q)." [pr.User.Login, org]
          ++ [.call (.GetIssueLabels org repo num)]
          ++ logIf labels.2 .warning false "while retrieving labels, error: %v"
              (match labels.2 with
               | some e => [e]
               | none => [])
          ++ rest.effects,
         rest.outcome⟩

/-- The client calls among a list of effects, in order. -/
def callsOf (effects : List Effect) : List Call :=
  effects.filterMap (fun e =>
    match e with
    | .call c => some c
    | .log _ => none)

/-- The client calls of a run, in order. -/
def Run.calls (r : Run) : List Call :=
  callsOf r.effects

/-- Whether a call changes the pull request: a label added or removed, a comment posted. -/
def Call.isMutation : Call → Bool
  | .CreateComment _ _ _ _ => true
  | .AddLabel _ _ _ _ => true
  | .RemoveLabel _ _ _ _ => true
  | _ => false

/-- The mutation calls of a run, in order. -/
def Run.mutations (r : Run) : List Call :=
  r.calls.filter Call.isMutation

/-! ## The words of the specification -/

/-- A qualifying event, in the words of the specification: its action is one of
`opened`, `reopened`, `synchronize`, `edited`. -/
def Qualifying (pe : github.PullRequestEvent) : Prop :=
  pe.Action = "opened" ∨ pe.Action = "reopened" ∨ pe.Action = "synchronize"
    ∨ pe.Action = "edited"

instance (pe : github.PullRequestEvent) : Decidable (Qualifying pe) := by
  unfold Qualifying
  exact inferInstance

/-- Presence of a label name in a label list. -/
def hasLabel (labels : List github.Label) (name : String) : Bool :=
  labels.any (fun l => l.Name == name)

/-- The kinds of mutation the transition table speaks of. -/
inductive Mutation where
  | removeLabel (label : String)
  | addLabel (label : String)
  | createComment
deriving DecidableEq, Repr

/-- The transition table of the specification, top to bottom, first match wins. -/
def transitionTable (hasYes hasNo claReady : Bool) : List Mutation :=
  if hasYes ∧ claReady then []
  else if hasNo ∧ ¬ claReady then []
  else if hasNo ∧ claReady then [.removeLabel claNoLabel, .addLabel claYesLabel]
  else if claReady then [.addLabel claYesLabel]
  else if hasYes then [.removeLabel claYesLabel, .createComment, .addLabel claNoLabel]
  else [.createComment, .addLabel claNoLabel]

/-- The client call that carries out a mutation of the table on a pull request, the
comment being the template with the footer in the place of its verb. -/
def Mutation.toCall (AboutThisBot org repo : String) (number : Int) : Mutation → Call
  | .removeLabel label => .RemoveLabel org repo number label
  | .addLabel label => .AddLabel org repo number label
  | .createComment =>
    .CreateComment org repo number
      (String.mk (Sprintf caicloudclaNotFoundMessage.toList AboutThisBot))

/-- The label set of the pull request after a call that succeeds: `AddLabel` puts the
label on it, `RemoveLabel` takes it off, any other call leaves the labels alone. -/
def applyCall (labels : List github.Label) : Call → List github.Label
  | .AddLabel _ _ _ label => if hasLabel labels label then labels else labels ++ [⟨label⟩]
  | .RemoveLabel _ _ _ label => labels.filter (fun l => l.Name != label)
  | _ => labels

/-- The label set after a sequence of calls, applied in order. -/
def applyCalls (labels : List github.Label) (calls : List Call) : List github.Label :=
  calls.foldl applyCall labels

/-- The organization of an event: the owner of the base repository (line 71). -/
abbrev eventOrg (pe : github.PullRequestEvent) : String :=
  pe.PullRequest.Base.Repo.Owner.Login

/-- The repository of an event: the name of the base repository (line 72). -/
abbrev eventRepo (pe : github.PullRequestEvent) : String :=
  pe.PullRequest.Base.Repo.Name

/-- The number of the pull request an event carries (line 73). -/
abbrev eventNumber (pe : github.PullRequestEvent) : Int :=
  pe.PullRequest.Number

/-- The label list the handler reads for an event: what `GetIssueLabels` returns for the
base repository and the number of the event. -/
def labelsRead (gc : githubClient) (pe : github.PullRequestEvent) : List github.Label :=
  (gc.GetIssueLabels (eventOrg pe) (eventRepo pe) (eventNumber pe)).1

/-- The label set once the mutations of an invocation are applied to the labels read. -/
def labelsAfter (AboutThisBot : String) (gc : githubClient) (pe : github.PullRequestEvent) :
    List github.Label :=
  applyCalls (labelsRead gc pe) (handlePR AboutThisBot gc pe).mutations

/-- A client whose fetches either fail or succeed: a call of `GetPullRequest` or of
`GetCommit` that returns no error returns a record. -/
def ReturnsRecords (gc : githubClient) : Prop :=
  (∀ owner repo number, (gc.GetPullRequest owner repo number).2 = none →
      (gc.GetPullRequest owner repo number).1 ≠ none)
  ∧ (∀ owner repo sha, (gc.GetCommit owner repo sha).2 = none →
      (gc.GetCommit owner repo sha).1 ≠ none)

/-- The seven methods of the interface `githubClient`. -/
inductive Method where
  | CreateComment
  | AddLabel
  | RemoveLabel
  | GetIssueLabels
  | GetPullRequest
  | GetCommit
  | IsMember
deriving DecidableEq, Repr

/-- The method a call is a call of. -/
def Call.method : Call → Method
  | .CreateComment _ _ _ _ => .CreateComment
  | .AddLabel _ _ _ _ => .AddLabel
  | .RemoveLabel _ _ _ _ => .RemoveLabel
  | .GetIssueLabels _ _ _ => .GetIssueLabels
  | .GetPullRequest _ _ _ => .GetPullRequest
  | .GetCommit _ _ _ => .GetCommit
  | .IsMember _ _ => .IsMember

/-- How many of the calls are calls of a given method. -/
def countCalls (m : Method) (calls : List Call) : Nat :=
  (calls.filter (fun c => decide (c.method = m))).length

/-- The pull request a call is addressed to, as owner, repository and number, for the
five methods that take a number. -/
def Call.target : Call → Option (String × String × Int)
  | .CreateComment owner repo number _ => some (owner, repo, number)
  | .AddLabel owner repo number _ => some (owner, repo, number)
  | .RemoveLabel owner repo number _ => some (owner, repo, number)
  | .GetIssueLabels org repo number => some (org, repo, number)
  | .GetPullRequest owner repo number => some (owner, repo, number)
  | _ => none

/-- The comment in the words of the specification: the fixed text with the link to the
instructions, then the footer inside a details block. -/
def commentBody (footer : String) : String :=
  "Thanks for your pull request. Before we can look at your pull request, you\x27ll need to finish a Contributor License Agreement (CLA).\n\n:memo: **Please follow instructions at <https://github.com/caicloud/engineering/blob/master/docs/CLA.md> to complete the CLA.**\n\n<details>\n\n"
    ++ footer ++ "\n</details>\n\t"

/-! ## Concrete inputs -/

/-- A pull request record with number 101, the number the tests use. -/
def samplePR : github.PullRequest where
  Number := 101
  User := ⟨"bmj"⟩
  Base := ⟨"b0b0", ⟨⟨"caicloud"⟩, "test-infra"⟩⟩
  Head := ⟨"a1a1", ⟨⟨"bmj"⟩, "test-infra"⟩⟩

/-- An event on `samplePR` with the given action. -/
def sampleEvent (action : String) : github.PullRequestEvent :=
  ⟨action, samplePR⟩

/-- A commit with the given author email, committer name and committer email. -/
def sampleCommit (authorEmail committerName committerEmail : String) : github.CommitData :=
  ⟨⟨"bmj", authorEmail⟩, ⟨committerName, committerEmail⟩⟩

/-- A client in the manner of the fake of the tests: fixed answers whatever the
arguments, mutations that succeed. -/
def sampleClient (pr : Option github.PullRequest × Option Error)
    (commit : Option github.CommitData × Option Error) (member : Bool × Option Error)
    (labels : List String × Option Error) : githubClient where
  CreateComment := fun _ _ _ _ => none
  AddLabel := fun _ _ _ _ => none
  RemoveLabel := fun _ _ _ _ => none
  GetIssueLabels := fun _ _ _ => (labels.1.map github.Label.mk, labels.2)
  GetPullRequest := fun _ _ _ => pr
  GetCommit := fun _ _ _ => commit
  IsMember := fun _ _ => member

/-- The sample client when both fetches succeed. -/
def fetchedClient (commit : github.CommitData) (member : Bool × Option Error)
    (labels : List String × Option Error) : githubClient :=
  sampleClient (some samplePR, none) (some commit, none) member labels

/-- A commit whose author and committer email are outside the trusted domain. -/
def outsideCommit : github.CommitData :=
  sampleCommit "bmj@gmail.com" "bmj" "bmj@gmail.com"

/-- A commit whose author and committer email are in the trusted domain. -/
def insideCommit : github.CommitData :=
  sampleCommit "bmj@caicloud.io" "bmj" "bmj@caicloud.io"

/-- The event of the tests: only the action is set, every other field has the zero value
of its Go type, the number being 0. -/
def testEvent (action : String) : github.PullRequestEvent :=
  ⟨action, ⟨0, ⟨""⟩, ⟨"", ⟨⟨""⟩, ""⟩⟩, ⟨"", ⟨⟨""⟩, ""⟩⟩⟩⟩

/-- The client `gc` with its three mutation methods replaced by ones that return the
given errors. -/
def withMutationErrors (gc : githubClient) (comment add remove : Option Error) :
    githubClient where
  CreateComment := fun _ _ _ _ => comment
  AddLabel := fun _ _ _ _ => add
  RemoveLabel := fun _ _ _ _ => remove
  GetIssueLabels := gc.GetIssueLabels
  GetPullRequest := gc.GetPullRequest
  GetCommit := gc.GetCommit
  IsMember := gc.IsMember

end caicloudcla

/-! ## Lemmas on the regular expression -/

namespace regexp

theorem self_mem_starEnds (step : List Char → List (List Char)) (n : Nat) (s : List Char) :
    s ∈ starEnds step n s := by
  cases n <;> simp [starEnds]

theorem starEnds_suffix (step : List Char → List (List Char))
    (hstep : ∀ s t, t ∈ step s → t <:+ s) :
    ∀ (n : Nat) (s t : List Char), t ∈ starEnds step n s → t <:+ s := by
  intro n
  induction n with
  | zero =>
    intro s t h
    simp [starEnds] at h
    subst h
    exact List.suffix_refl _
  | succ n ih =>
    intro s t h
    simp only [starEnds, List.mem_cons, List.mem_flatten, List.mem_map, List.mem_filter] at h
    rcases h with h | ⟨l, ⟨u, ⟨hu, _⟩, rfl⟩, ht⟩
    · subst h
      exact List.suffix_refl _
    · exact (ih u t ht).trans (hstep s u hu)

theorem anyCharNotNL_ends_suffix (s t : List Char) (h : t ∈ Regexp.anyCharNotNL.ends s) :
    t <:+ s := by
  cases s with
  | nil => simp [Regexp.ends] at h
  | cons c rest =>
    simp only [Regexp.ends] at h
    split at h
    · simp at h
    · simp at h
      subst h
      exact List.suffix_cons c t

theorem literal_endText_ends (runes u : List Char) :
    ((Regexp.concat (.literal runes) .endText).ends u ≠ []) ↔ u = runes := by
  simp only [Regexp.ends]
  by_cases hp : runes.isPrefixOf u = true
  · obtain ⟨r, rfl⟩ := List.isPrefixOf_iff_prefix.mp hp
    cases r <;> simp [hp]
  · have : u ≠ runes := by
      rintro rfl
      exact hp (List.isPrefixOf_iff_prefix.mpr (List.prefix_refl _))
    simp [hp, this]

end regexp

namespace caicloudcla

open regexp

/-! ## Lemmas on the handler -/

theorem emailRe_MatchString_iff (s : String) :
    emailRe.MatchString s = true ↔ "@caicloud.io".toList <:+ s.toList := by
  unfold Regexp.MatchString
  simp only [List.any_eq_true, List.mem_tails, Bool.not_eq_true', List.isEmpty_eq_false]
  constructor
  · rintro ⟨t, hts, hne⟩
    have hne2 : ∃ u ∈ (Regexp.star .anyCharNotNL).ends t,
        (Regexp.concat (.literal "@caicloud.io".toList) .endText).ends u ≠ [] := by
      by_contra hcon
      push_neg at hcon
      apply hne
      show (((Regexp.star .anyCharNotNL).ends t).map
        (Regexp.concat (.literal "@caicloud.io".toList) .endText).ends).flatten = []
      rw [List.flatten_eq_nil_iff]
      intro l hl
      obtain ⟨u, hu, rfl⟩ := List.mem_map.mp hl
      exact hcon u hu
    obtain ⟨u, hu, hlit⟩ := hne2
    rw [literal_endText_ends] at hlit
    subst hlit
    exact (starEnds_suffix _ anyCharNotNL_ends_suffix _ _ _ hu).trans hts
  · intro h
    refine ⟨"@caicloud.io".toList, h, ?_⟩
    decide


@[simp] theorem callsOf_nil : callsOf [] = [] := rfl

@[simp] theorem callsOf_append (a b : List Effect) : callsOf (a ++ b) = callsOf a ++ callsOf b := by
  simp [callsOf, List.filterMap_append]

@[simp] theorem callsOf_cons_call (c : Call) (es : List Effect) :
    callsOf (.call c :: es) = c :: callsOf es := by
  simp [callsOf]

@[simp] theorem callsOf_cons_log (l : LogEntry) (es : List Effect) :
    callsOf (.log l :: es) = callsOf es := by
  simp [callsOf]

@[simp] theorem callsOf_logIf (err : Option Error) (level : Level) (w : Bool) (format : String)
    (args : List String) : callsOf (logIf err level w format args) = [] := by
  cases err <;> simp [logIf]

theorem scanLabels_eq (labels : List github.Label) : ∀ (y n : Bool),
    scanLabels labels (y, n) = (y || hasLabel labels claYesLabel, n || hasLabel labels claNoLabel) := by
  induction labels with
  | nil => intro y n; simp [scanLabels, hasLabel]
  | cons l rest ih =>
    intro y n
    have hyn : (claYesLabel == claNoLabel) = false := by decide
    have hny : (claNoLabel == claYesLabel) = false := by decide
    simp only [scanLabels]
    split
    · rename_i h
      rw [ih]
      simp [hasLabel, h, hyn]
    · split
      · rename_i h1 h2
        rw [ih]
        simp [hasLabel, h2, hny]
      · rename_i h1 h2
        have b1 : (l.Name == claYesLabel) = false := beq_eq_false_iff_ne.mpr h1
        have b2 : (l.Name == claNoLabel) = false := beq_eq_false_iff_ne.mpr h2
        rw [ih]
        simp [hasLabel, b1, b2]

theorem reconcile_calls (about : String) (gc : githubClient) (org repo : String) (number : Int)
    (y n r : Bool) :
    callsOf (reconcile about gc org repo number y n r).effects
      = (transitionTable y n r).map (Mutation.toCall about org repo number) := by
  cases y <;> cases n <;> cases r <;> simp [reconcile, transitionTable, Mutation.toCall]

theorem reconcile_outcome (about : String) (gc : githubClient) (org repo : String) (number : Int)
    (y n r : Bool) :
    (reconcile about gc org repo number y n r).outcome = .returned none := by
  cases y <;> cases n <;> cases r <;> simp [reconcile]


theorem isMutation_toCall (about org repo : String) (number : Int) (m : Mutation) :
    (m.toCall about org repo number).isMutation = true := by
  cases m <;> rfl

theorem filter_isMutation_table (about org repo : String) (number : Int) (ms : List Mutation) :
    (ms.map (Mutation.toCall about org repo number)).filter Call.isMutation
      = ms.map (Mutation.toCall about org repo number) := by
  rw [List.filter_eq_self]
  intro c hc
  obtain ⟨m, _, rfl⟩ := List.mem_map.mp hc
  exact isMutation_toCall about org repo number m

theorem handlePR_fetched (about : String) (gc : githubClient) (pe : github.PullRequestEvent)
    (pr : github.PullRequest) (commit : github.CommitData)
    (hq : isPRChanged pe = true)
    (hpr : gc.GetPullRequest (eventOrg pe) (eventRepo pe)
      (eventNumber pe) = (some pr, none))
    (hc : gc.GetCommit (eventOrg pe) (eventRepo pe)
      pr.Head.SHA = (some commit, none)) :
    (handlePR about gc pe).calls
        = [.GetPullRequest (eventOrg pe) (eventRepo pe)
              (eventNumber pe),
           .GetCommit (eventOrg pe) (eventRepo pe)
              pr.Head.SHA,
           .IsMember (eventOrg pe) pr.User.Login,
           .GetIssueLabels (eventOrg pe) (eventRepo pe)
              (eventNumber pe)]
          ++ (transitionTable (hasLabel (labelsRead gc pe) claYesLabel)
                (hasLabel (labelsRead gc pe) claNoLabel)
                (claReady commit
                  (gc.IsMember (eventOrg pe) pr.User.Login).1)).map
              (Mutation.toCall about (eventOrg pe)
                (eventRepo pe) pr.Number)
      ∧ (handlePR about gc pe).outcome = .returned none := by
  simp only [handlePR, hq, hpr, hc, Run.calls]
  simp [reconcile_calls, reconcile_outcome, scanLabels_eq, labelsRead]

theorem handlePR_mutations (about : String) (gc : githubClient) (pe : github.PullRequestEvent)
    (pr : github.PullRequest) (commit : github.CommitData)
    (hq : isPRChanged pe = true)
    (hpr : gc.GetPullRequest (eventOrg pe) (eventRepo pe)
      (eventNumber pe) = (some pr, none))
    (hc : gc.GetCommit (eventOrg pe) (eventRepo pe)
      pr.Head.SHA = (some commit, none)) :
    (handlePR about gc pe).mutations
        = (transitionTable (hasLabel (labelsRead gc pe) claYesLabel)
                (hasLabel (labelsRead gc pe) claNoLabel)
                (claReady commit
                  (gc.IsMember (eventOrg pe) pr.User.Login).1)).map
              (Mutation.toCall about (eventOrg pe)
                (eventRepo pe) pr.Number) := by
  unfold Run.mutations
  rw [(handlePR_fetched about gc pe pr commit hq hpr hc).1, List.filter_append,
    filter_isMutation_table]
  simp [Call.isMutation]


theorem hasLabel_append_single (labels : List github.Label) (label name : String) :
    hasLabel (labels ++ [⟨label⟩]) name = (hasLabel labels name || label == name) := by
  simp [hasLabel]

theorem hasLabel_filter_ne (labels : List github.Label) (label name : String) :
    hasLabel (labels.filter (fun l => l.Name != label)) name
      = (hasLabel labels name && name != label) := by
  rw [Bool.eq_iff_iff]
  simp only [hasLabel, List.any_eq_true, List.mem_filter, Bool.and_eq_true, bne_iff_ne, ne_eq,
    beq_iff_eq]
  constructor
  · rintro ⟨l, ⟨hl, hne⟩, rfl⟩
    exact ⟨⟨l, hl, rfl⟩, hne⟩
  · rintro ⟨⟨l, hl, rfl⟩, hne⟩
    exact ⟨l, ⟨hl, hne⟩, rfl⟩

theorem hasLabel_applyCalls_table (about org repo : String) (number : Int)
    (labels : List github.Label) (r : Bool) :
    hasLabel (applyCalls labels ((transitionTable (hasLabel labels claYesLabel)
        (hasLabel labels claNoLabel) r).map (Mutation.toCall about org repo number))) claYesLabel
      = ((hasLabel labels claYesLabel && hasLabel labels claNoLabel) || r)
    ∧ hasLabel (applyCalls labels ((transitionTable (hasLabel labels claYesLabel)
        (hasLabel labels claNoLabel) r).map (Mutation.toCall about org repo number))) claNoLabel
      = ((hasLabel labels claYesLabel && hasLabel labels claNoLabel) || !r) := by
  have hyn : (claYesLabel == claNoLabel) = false := by decide
  have hny : (claNoLabel == claYesLabel) = false := by decide
  cases hy : hasLabel labels claYesLabel <;> cases hn : hasLabel labels claNoLabel <;> cases r <;>
    simp [transitionTable, applyCalls, applyCall, Mutation.toCall, hasLabel_append_single,
      hasLabel_filter_ne, hy, hn, hyn, hny]

theorem labelsAfter_fetched (about : String) (gc : githubClient) (pe : github.PullRequestEvent)
    (pr : github.PullRequest) (commit : github.CommitData)
    (hq : isPRChanged pe = true)
    (hpr : gc.GetPullRequest (eventOrg pe) (eventRepo pe) (eventNumber pe) = (some pr, none))
    (hc : gc.GetCommit (eventOrg pe) (eventRepo pe) pr.Head.SHA = (some commit, none)) :
    hasLabel (labelsAfter about gc pe) claYesLabel
      = ((hasLabel (labelsRead gc pe) claYesLabel && hasLabel (labelsRead gc pe) claNoLabel)
          || claReady commit (gc.IsMember (eventOrg pe) pr.User.Login).1)
    ∧ hasLabel (labelsAfter about gc pe) claNoLabel
      = ((hasLabel (labelsRead gc pe) claYesLabel && hasLabel (labelsRead gc pe) claNoLabel)
          || !claReady commit (gc.IsMember (eventOrg pe) pr.User.Login).1) := by
  unfold labelsAfter
  rw [handlePR_mutations about gc pe pr commit hq hpr hc]
  exact hasLabel_applyCalls_table about _ _ _ _ _

theorem handlePR_cases (about : String) (gc : githubClient) (pe : github.PullRequestEvent) :
    ((handlePR about gc pe).mutations = []
      ∧ ∀ gc2 : githubClient, gc2.GetPullRequest = gc.GetPullRequest →
          gc2.GetCommit = gc.GetCommit → (handlePR about gc2 pe).mutations = [])
    ∨ ∃ pr commit, isPRChanged pe = true
        ∧ gc.GetPullRequest (eventOrg pe) (eventRepo pe) (eventNumber pe) = (some pr, none)
        ∧ gc.GetCommit (eventOrg pe) (eventRepo pe) pr.Head.SHA = (some commit, none) := by
  cases hq : isPRChanged pe with
  | false =>
    left
    refine ⟨by simp [handlePR, hq, Run.mutations, Run.calls], fun gc2 _ _ => ?_⟩
    simp [handlePR, hq, Run.mutations, Run.calls]
  | true =>
    rcases hpr : gc.GetPullRequest (eventOrg pe) (eventRepo pe) (eventNumber pe)
      with ⟨_ | pr, _ | e⟩
    · left
      refine ⟨by simp [handlePR, hq, hpr, Run.mutations, Run.calls, Call.isMutation],
        fun gc2 h1 _ => ?_⟩
      rw [← h1] at hpr
      simp [handlePR, hq, hpr, Run.mutations, Run.calls, Call.isMutation]
    · left
      refine ⟨by simp [handlePR, hq, hpr, Run.mutations, Run.calls, Call.isMutation],
        fun gc2 h1 _ => ?_⟩
      rw [← h1] at hpr
      simp [handlePR, hq, hpr, Run.mutations, Run.calls, Call.isMutation]
    · rcases hc : gc.GetCommit (eventOrg pe) (eventRepo pe) pr.Head.SHA with ⟨_ | commit, _ | e⟩
      · left
        refine ⟨by simp [handlePR, hq, hpr, hc, Run.mutations, Run.calls, Call.isMutation],
          fun gc2 h1 h2 => ?_⟩
        rw [← h1] at hpr
        rw [← h2] at hc
        simp [handlePR, hq, hpr, hc, Run.mutations, Run.calls, Call.isMutation]
      · left
        refine ⟨by simp [handlePR, hq, hpr, hc, Run.mutations, Run.calls, Call.isMutation],
          fun gc2 h1 h2 => ?_⟩
        rw [← h1] at hpr
        rw [← h2] at hc
        simp [handlePR, hq, hpr, hc, Run.mutations, Run.calls, Call.isMutation]
      · right
        exact ⟨pr, commit, rfl, rfl, hc⟩
      · left
        refine ⟨by simp [handlePR, hq, hpr, hc, Run.mutations, Run.calls, Call.isMutation],
          fun gc2 h1 h2 => ?_⟩
        rw [← h1] at hpr
        rw [← h2] at hc
        simp [handlePR, hq, hpr, hc, Run.mutations, Run.calls, Call.isMutation]
    · left
      refine ⟨by simp [handlePR, hq, hpr, Run.mutations, Run.calls, Call.isMutation],
        fun gc2 h1 _ => ?_⟩
      rw [← h1] at hpr
      simp [handlePR, hq, hpr, Run.mutations, Run.calls, Call.isMutation]

theorem isPRChanged_iff (pe : github.PullRequestEvent) :
    isPRChanged pe = true ↔ Qualifying pe := by
  unfold Qualifying isPRChanged github.PullRequestActionOpened github.PullRequestActionReopened
    github.PullRequestActionSynchronize github.PullRequestActionEdited
  by_cases h1 : pe.Action = "opened"
  · simp [h1]
  · by_cases h2 : pe.Action = "reopened"
    · simp [h2]
    · by_cases h3 : pe.Action = "synchronize"
      · simp [h3]
      · by_cases h4 : pe.Action = "edited"
        · simp [h4]
        · simp [h1, h2, h3, h4]

theorem commitReady_iff (commit : github.CommitData) :
    commitReady commit = true
      ↔ "@caicloud.io".toList <:+ commit.Author.Email.toList
        ∧ (commit.Committer.Email = commit.Author.Email ∨ commit.Committer.Name = "GitHub"
            ∨ commit.Committer.Name = "caicloud-bot") := by
  rw [← emailRe_MatchString_iff commit.Author.Email]
  unfold commitReady
  by_cases hm : emailRe.MatchString commit.Author.Email = true
  · simp [hm, githubName, botName, or_assoc]
  · simp [hm]

theorem transitionTable_settled (y n r : Bool) :
    transitionTable ((y && n) || r) ((y && n) || !r) r = [] := by
  cases y <;> cases n <;> cases r <;> rfl

theorem Sprintf_cons (c : Char) (l : List Char) (a : String) (hc : c ≠ '%') (hl : l ≠ []) :
    Sprintf (c :: l) a = c :: Sprintf l a := by
  cases l with
  | nil => exact absurd rfl hl
  | cons d rest => simp [Sprintf, hc]

theorem Sprintf_verb (pre rest : List Char) (a : String) (hpre : '%' ∉ pre) :
    Sprintf (pre ++ '%' :: 's' :: rest) a = pre ++ a.toList ++ rest := by
  induction pre with
  | nil => simp [Sprintf]
  | cons c pre ih =>
    have hc : c ≠ '%' := fun h => hpre (by simp [h])
    have hp : '%' ∉ pre := fun h => hpre (List.mem_cons_of_mem _ h)
    rw [List.cons_append, Sprintf_cons c _ a hc (by simp), ih hp]
    simp

set_option maxRecDepth 8000 in
theorem Sprintf_template (about : String) :
    String.mk (Sprintf caicloudclaNotFoundMessage.toList about) = commentBody about := by
  have h : caicloudclaNotFoundMessage.toList
      = "Thanks for your pull request. Before we can look at your pull request, you\x27ll need to finish a Contributor License Agreement (CLA).\n\n:memo: **Please follow instructions at <https://github.com/caicloud/engineering/blob/master/docs/CLA.md> to complete the CLA.**\n\n<details>\n\n".toList
        ++ '%' :: 's' :: "\n</details>\n\t".toList := by
    decide
  rw [h, Sprintf_verb _ _ _ (by decide)]
  apply String.ext
  simp only [commentBody, String.data_append, String.toList]

theorem handlePR_run_cases (about : String) (gc : githubClient) (pe : github.PullRequestEvent) :
    (isPRChanged pe = false ∧ (handlePR about gc pe).calls = []
      ∧ (handlePR about gc pe).outcome = .returned none)
    ∨ (∃ res err, isPRChanged pe = true
        ∧ gc.GetPullRequest (eventOrg pe) (eventRepo pe) (eventNumber pe) = (res, some err)
        ∧ (handlePR about gc pe).calls
            = [.GetPullRequest (eventOrg pe) (eventRepo pe) (eventNumber pe)]
        ∧ (handlePR about gc pe).outcome = .returned none)
    ∨ (isPRChanged pe = true
        ∧ gc.GetPullRequest (eventOrg pe) (eventRepo pe) (eventNumber pe) = (none, none)
        ∧ (handlePR about gc pe).calls
            = [.GetPullRequest (eventOrg pe) (eventRepo pe) (eventNumber pe)]
        ∧ (handlePR about gc pe).outcome = .panicked)
    ∨ (∃ pr res err, isPRChanged pe = true
        ∧ gc.GetPullRequest (eventOrg pe) (eventRepo pe) (eventNumber pe) = (some pr, none)
        ∧ gc.GetCommit (eventOrg pe) (eventRepo pe) pr.Head.SHA = (res, some err)
        ∧ (handlePR about gc pe).calls
            = [.GetPullRequest (eventOrg pe) (eventRepo pe) (eventNumber pe),
               .GetCommit (eventOrg pe) (eventRepo pe) pr.Head.SHA]
        ∧ (handlePR about gc pe).outcome = .returned none)
    ∨ (∃ pr, isPRChanged pe = true
        ∧ gc.GetPullRequest (eventOrg pe) (eventRepo pe) (eventNumber pe) = (some pr, none)
        ∧ gc.GetCommit (eventOrg pe) (eventRepo pe) pr.Head.SHA = (none, none)
        ∧ (handlePR about gc pe).calls
            = [.GetPullRequest (eventOrg pe) (eventRepo pe) (eventNumber pe),
               .GetCommit (eventOrg pe) (eventRepo pe) pr.Head.SHA]
        ∧ (handlePR about gc pe).outcome = .panicked)
    ∨ (∃ pr commit, isPRChanged pe = true
        ∧ gc.GetPullRequest (eventOrg pe) (eventRepo pe) (eventNumber pe) = (some pr, none)
        ∧ gc.GetCommit (eventOrg pe) (eventRepo pe) pr.Head.SHA = (some commit, none)) := by
  cases hq : isPRChanged pe with
  | false =>
    left
    simp [handlePR, hq, Run.calls]
  | true =>
    right
    rcases hpr : gc.GetPullRequest (eventOrg pe) (eventRepo pe) (eventNumber pe)
      with ⟨_ | pr, _ | e⟩
    · right; left
      simp [handlePR, hq, hpr, Run.calls]
    · left
      exact ⟨none, e, rfl, rfl, by simp [handlePR, hq, hpr, Run.calls]⟩
    · right; right
      rcases hc : gc.GetCommit (eventOrg pe) (eventRepo pe) pr.Head.SHA with ⟨_ | commit, _ | e⟩
      · right; left
        exact ⟨pr, rfl, rfl, hc, by simp [handlePR, hq, hpr, hc, Run.calls]⟩
      · left
        exact ⟨pr, none, e, rfl, rfl, hc, by simp [handlePR, hq, hpr, hc, Run.calls]⟩
      · right; right
        exact ⟨pr, commit, rfl, rfl, hc⟩
      · left
        exact ⟨pr, some commit, e, rfl, rfl, hc, by simp [handlePR, hq, hpr, hc, Run.calls]⟩
    · left
      exact ⟨some pr, e, rfl, rfl, by simp [handlePR, hq, hpr, Run.calls]⟩

theorem handlePR_calls_congr (about : String) (gc gc2 : githubClient)
    (pe : github.PullRequestEvent)
    (h1 : gc2.GetPullRequest = gc.GetPullRequest) (h2 : gc2.GetCommit = gc.GetCommit)
    (h3 : gc2.IsMember = gc.IsMember)
    (hy : hasLabel (labelsRead gc2 pe) claYesLabel = hasLabel (labelsRead gc pe) claYesLabel)
    (hn : hasLabel (labelsRead gc2 pe) claNoLabel = hasLabel (labelsRead gc pe) claNoLabel) :
    (handlePR about gc2 pe).calls = (handlePR about gc pe).calls
    ∧ (handlePR about gc2 pe).outcome = (handlePR about gc pe).outcome := by
  rcases handlePR_run_cases about gc pe with ⟨hq, a, b⟩ | ⟨res, err, hq, hpr, a, b⟩
    | ⟨hq, hpr, a, b⟩ | ⟨pr, res, err, hq, hpr, hc, a, b⟩ | ⟨pr, hq, hpr, hc, a, b⟩
    | ⟨pr, commit, hq, hpr, hc⟩
  · rw [a, b]
    simp [handlePR, hq, Run.calls]
  · rw [a, b]
    rw [← h1] at hpr
    simp [handlePR, hq, hpr, Run.calls]
  · rw [a, b]
    rw [← h1] at hpr
    simp [handlePR, hq, hpr, Run.calls]
  · rw [a, b]
    rw [← h1] at hpr
    rw [← h2] at hc
    simp [handlePR, hq, hpr, hc, Run.calls]
  · rw [a, b]
    rw [← h1] at hpr
    rw [← h2] at hc
    simp [handlePR, hq, hpr, hc, Run.calls]
  · obtain ⟨a, b⟩ := handlePR_fetched about gc pe pr commit hq hpr hc
    rw [← h1] at hpr
    rw [← h2] at hc
    obtain ⟨a2, b2⟩ := handlePR_fetched about gc2 pe pr commit hq hpr hc
    rw [a, b, a2, b2, hy, hn, h3]
    exact ⟨rfl, rfl⟩

theorem table_comment (about org repo : String) (number : Int) (y n r : Bool)
    (o p : String) (k : Int) (body : String)
    (h : Call.CreateComment o p k body
      ∈ (transitionTable y n r).map (Mutation.toCall about org repo number)) :
    body = commentBody about
    ∧ ∃ before, (transitionTable y n r).map (Mutation.toCall about org repo number)
        = before ++ [.CreateComment o p k body, .AddLabel o p k claNoLabel] := by
  cases y <;> cases n <;> cases r <;>
    simp [transitionTable, Mutation.toCall] at h
  · obtain ⟨rfl, rfl, rfl, hb⟩ := h
    subst hb
    exact ⟨Sprintf_template about, [], rfl⟩
  · obtain ⟨rfl, rfl, rfl, hb⟩ := h
    subst hb
    exact ⟨Sprintf_template about, [.RemoveLabel o p k claYesLabel], rfl⟩

theorem table_comment_iff (about org repo : String) (number : Int) (y n r : Bool) :
    ((∃ o p k body, Call.CreateComment o p k body
        ∈ (transitionTable y n r).map (Mutation.toCall about org repo number))
      ↔ (r = false ∧ n = false))
    ∧ ((∃ o p k, Call.AddLabel o p k claNoLabel
        ∈ (transitionTable y n r).map (Mutation.toCall about org repo number))
      ↔ (r = false ∧ n = false)) := by
  have hyn : ¬ claYesLabel = claNoLabel := by decide
  have hny : ¬ claNoLabel = claYesLabel := by decide
  cases y <;> cases n <;> cases r <;>
    simp [transitionTable, Mutation.toCall, hyn, hny]

/-! ## The claims -/

/-- Claim C1. For a qualifying event whose pull-request and commit fetches succeed, the
mutation calls of `handlePR`, in order, are those of the transition table at
(`hasYes`, `hasNo`, `claReady`), carried out on the base repository of the event and the
number of the fetched record. -/
theorem handlePR_mutations_follow_table (AboutThisBot : String) (gc : githubClient)
    (pe : github.PullRequestEvent) (pr : github.PullRequest) (commit : github.CommitData)
    (hq : Qualifying pe)
    (hpr : gc.GetPullRequest (eventOrg pe) (eventRepo pe) (eventNumber pe) = (some pr, none))
    (hc : gc.GetCommit (eventOrg pe) (eventRepo pe) pr.Head.SHA = (some commit, none)) :
    (handlePR AboutThisBot gc pe).mutations
      = (transitionTable (hasLabel (labelsRead gc pe) claYesLabel)
            (hasLabel (labelsRead gc pe) claNoLabel)
            (claReady commit (gc.IsMember (eventOrg pe) pr.User.Login).1)).map
          (Mutation.toCall AboutThisBot (eventOrg pe) (eventRepo pe) pr.Number) :=
  handlePR_mutations AboutThisBot gc pe pr commit ((isPRChanged_iff pe).mpr hq) hpr hc

/-- The table of C1 at the test case "have label no, is member, cla ready". -/
theorem handlePR_mutations_follow_table_witness :
    Qualifying (sampleEvent "edited")
    ∧ (handlePR "about" (fetchedClient insideCommit (true, none) ([claNoLabel], none))
        (sampleEvent "edited")).mutations
      = [.RemoveLabel "caicloud" "test-infra" 101 claNoLabel,
         .AddLabel "caicloud" "test-infra" 101 claYesLabel] :=
  ⟨by decide,
   (handlePR_mutations_follow_table "about"
      (fetchedClient insideCommit (true, none) ([claNoLabel], none)) (sampleEvent "edited")
      samplePR insideCommit (by decide) rfl rfl).trans (by decide)⟩

/-- Claim C2. When `IsMember` returns true without error, the `claReady` that `handlePR`
decides the labels with is true exactly when the author email ends in `@caicloud.io` and
the committer email is the author email or the committer name is `GitHub` or
`caicloud-bot`; the mutations issued are those of the table at that value. -/
theorem claReady_of_member_iff (AboutThisBot : String) (gc : githubClient)
    (pe : github.PullRequestEvent) (pr : github.PullRequest) (commit : github.CommitData)
    (hq : Qualifying pe)
    (hpr : gc.GetPullRequest (eventOrg pe) (eventRepo pe) (eventNumber pe) = (some pr, none))
    (hc : gc.GetCommit (eventOrg pe) (eventRepo pe) pr.Head.SHA = (some commit, none))
    (hm : gc.IsMember (eventOrg pe) pr.User.Login = (true, none)) :
    (claReady commit (gc.IsMember (eventOrg pe) pr.User.Login).1 = true
      ↔ "@caicloud.io".toList <:+ commit.Author.Email.toList
        ∧ (commit.Committer.Email = commit.Author.Email ∨ commit.Committer.Name = "GitHub"
            ∨ commit.Committer.Name = "caicloud-bot"))
    ∧ (handlePR AboutThisBot gc pe).mutations
      = (transitionTable (hasLabel (labelsRead gc pe) claYesLabel)
            (hasLabel (labelsRead gc pe) claNoLabel)
            (decide ("@caicloud.io".toList <:+ commit.Author.Email.toList
              ∧ (commit.Committer.Email = commit.Author.Email
                  ∨ commit.Committer.Name = "GitHub"
                  ∨ commit.Committer.Name = "caicloud-bot")))).map
          (Mutation.toCall AboutThisBot (eventOrg pe) (eventRepo pe) pr.Number) := by
  replace hq : isPRChanged pe = true := (isPRChanged_iff pe).mpr hq
  have h1 : claReady commit (gc.IsMember (eventOrg pe) pr.User.Login).1 = commitReady commit := by
    simp [claReady, hm]
  have h2 : commitReady commit = decide ("@caicloud.io".toList <:+ commit.Author.Email.toList
              ∧ (commit.Committer.Email = commit.Author.Email
                  ∨ commit.Committer.Name = "GitHub"
                  ∨ commit.Committer.Name = "caicloud-bot")) := by
    rw [Bool.eq_iff_iff, commitReady_iff]
    simp
  refine ⟨by rw [h1]; exact commitReady_iff commit, ?_⟩
  rw [handlePR_mutations AboutThisBot gc pe pr commit hq hpr hc, h1, h2]

set_option maxRecDepth 8000 in
/-- The gate of C2 at the test case "no label, is member, cla not ready (right committer
email)": a trusted committer email does not make up for an untrusted author email. -/
theorem claReady_of_member_iff_witness :
    Qualifying (sampleEvent "opened")
    ∧ claReady (sampleCommit "bmj@gmail.com" "bmj" "bmj@caicloud.io") true = false
    ∧ (handlePR "about"
        (fetchedClient (sampleCommit "bmj@gmail.com" "bmj" "bmj@caicloud.io") (true, none)
          ([], none)) (sampleEvent "opened")).mutations
      = (transitionTable false false false).map
          (Mutation.toCall "about" "caicloud" "test-infra" 101) :=
  ⟨by decide, by decide,
   ((claReady_of_member_iff "about"
      (fetchedClient (sampleCommit "bmj@gmail.com" "bmj" "bmj@caicloud.io") (true, none)
        ([], none)) (sampleEvent "opened") samplePR
      (sampleCommit "bmj@gmail.com" "bmj" "bmj@caicloud.io") (by decide) rfl rfl rfl).2).trans
    (by decide)⟩

/-- Claim C3, as stated, fails: the author is not a member, the pull request starts with
both labels, `handlePR` issues no mutation and the `no` label stays. -/
theorem exemption_counterexample :
    Qualifying (sampleEvent "opened")
    ∧ ((fetchedClient outsideCommit (false, none) ([claYesLabel, claNoLabel], none)).IsMember
        "caicloud" "bmj").1 = false
    ∧ (handlePR "about" (fetchedClient outsideCommit (false, none)
        ([claYesLabel, claNoLabel], none)) (sampleEvent "opened")).mutations = []
    ∧ hasLabel (labelsAfter "about" (fetchedClient outsideCommit (false, none)
        ([claYesLabel, claNoLabel], none)) (sampleEvent "opened")) claNoLabel = true := by
  decide

/-- Claim C3, amended. For a qualifying event whose fetches succeed and for which the
boolean of `IsMember` is false, after the mutations are applied the `yes` label is present,
and the `no` label is present only when the starting label set held both labels. -/
theorem exemption_end_state (AboutThisBot : String) (gc : githubClient)
    (pe : github.PullRequestEvent) (pr : github.PullRequest) (commit : github.CommitData)
    (hq : Qualifying pe)
    (hpr : gc.GetPullRequest (eventOrg pe) (eventRepo pe) (eventNumber pe) = (some pr, none))
    (hc : gc.GetCommit (eventOrg pe) (eventRepo pe) pr.Head.SHA = (some commit, none))
    (hm : (gc.IsMember (eventOrg pe) pr.User.Login).1 = false) :
    hasLabel (labelsAfter AboutThisBot gc pe) claYesLabel = true
    ∧ (hasLabel (labelsAfter AboutThisBot gc pe) claNoLabel = true
        ↔ hasLabel (labelsRead gc pe) claYesLabel = true
          ∧ hasLabel (labelsRead gc pe) claNoLabel = true) := by
  replace hq : isPRChanged pe = true := (isPRChanged_iff pe).mpr hq
  obtain ⟨h1, h2⟩ := labelsAfter_fetched AboutThisBot gc pe pr commit hq hpr hc
  rw [h1, h2]
  simp [claReady, hm]

/-- The amended C3 at the test case "have label no, not member". -/
theorem exemption_end_state_witness :
    Qualifying (sampleEvent "edited")
    ∧ hasLabel (labelsAfter "about" (fetchedClient outsideCommit (false, none)
        ([claNoLabel], none)) (sampleEvent "edited")) claYesLabel = true
    ∧ hasLabel (labelsAfter "about" (fetchedClient outsideCommit (false, none)
        ([claNoLabel], none)) (sampleEvent "edited")) claNoLabel = false :=
  have h := exemption_end_state "about"
    (fetchedClient outsideCommit (false, none) ([claNoLabel], none)) (sampleEvent "edited")
    samplePR outsideCommit (by decide) rfl rfl rfl
  ⟨by decide, h.1, by
    rw [Bool.eq_false_iff]
    intro hno
    exact absurd (h.2.mp hno).1 (by decide)⟩

/-- Claim C4. Idempotence: when a second run has the same pull request, commit and
membership answers as the first and reads the label set the mutations of the first run
produce, the second run issues no `AddLabel`, `RemoveLabel` or `CreateComment`. -/
theorem handlePR_idempotent (AboutThisBot : String) (gc gc2 : githubClient)
    (pe : github.PullRequestEvent)
    (hpr : gc2.GetPullRequest = gc.GetPullRequest)
    (hc : gc2.GetCommit = gc.GetCommit)
    (hm : gc2.IsMember = gc.IsMember)
    (hl : labelsRead gc2 pe = labelsAfter AboutThisBot gc pe) :
    (handlePR AboutThisBot gc2 pe).mutations = [] := by
  rcases handlePR_cases AboutThisBot gc pe with ⟨_, h⟩ | ⟨pr, commit, hq, h1, h2⟩
  · exact h gc2 hpr hc
  · obtain ⟨a1, a2⟩ := labelsAfter_fetched AboutThisBot gc pe pr commit hq h1 h2
    rw [← hpr] at h1
    rw [← hc] at h2
    rw [handlePR_mutations AboutThisBot gc2 pe pr commit hq h1 h2, hl, a1, a2, hm,
      transitionTable_settled]
    rfl

/-- The idempotence of C4 after the test case "have label yes, is member, cla not ready":
the first run leaves the `no` label alone on the pull request, the second finds it. -/
theorem handlePR_idempotent_witness :
    (handlePR "about" (fetchedClient outsideCommit (true, none) ([claYesLabel], none))
        (sampleEvent "edited")).mutations.length = 3
    ∧ labelsRead (fetchedClient outsideCommit (true, none) ([claNoLabel], none))
          (sampleEvent "edited")
        = labelsAfter "about" (fetchedClient outsideCommit (true, none) ([claYesLabel], none))
            (sampleEvent "edited")
    ∧ (handlePR "about" (fetchedClient outsideCommit (true, none) ([claNoLabel], none))
        (sampleEvent "edited")).mutations = [] :=
  ⟨by decide, by decide,
   handlePR_idempotent "about"
    (fetchedClient outsideCommit (true, none) ([claYesLabel], none))
    (fetchedClient outsideCommit (true, none) ([claNoLabel], none))
    (sampleEvent "edited") rfl rfl rfl (by decide)⟩

/-- Claim C5, as stated, fails: a pull request that starts with both labels keeps both,
whether `claReady` is true (first row of the table) or false (second row). -/
theorem mutual_exclusion_counterexample :
    Qualifying (sampleEvent "synchronize")
    ∧ (hasLabel (labelsAfter "about" (fetchedClient insideCommit (true, none)
          ([claYesLabel, claNoLabel], none)) (sampleEvent "synchronize")) claYesLabel = true
      ∧ hasLabel (labelsAfter "about" (fetchedClient insideCommit (true, none)
          ([claYesLabel, claNoLabel], none)) (sampleEvent "synchronize")) claNoLabel = true)
    ∧ (hasLabel (labelsAfter "about" (fetchedClient outsideCommit (true, none)
          ([claYesLabel, claNoLabel], none)) (sampleEvent "synchronize")) claYesLabel = true
      ∧ hasLabel (labelsAfter "about" (fetchedClient outsideCommit (true, none)
          ([claYesLabel, claNoLabel], none)) (sampleEvent "synchronize")) claNoLabel = true) := by
  decide

/-- Claim C5, amended. After the mutations of `handlePR` are applied, the `yes` and the
`no` label are both present exactly when both were present in the starting label set. -/
theorem mutual_exclusion_unless_both (AboutThisBot : String) (gc : githubClient)
    (pe : github.PullRequestEvent) :
    (hasLabel (labelsAfter AboutThisBot gc pe) claYesLabel = true
      ∧ hasLabel (labelsAfter AboutThisBot gc pe) claNoLabel = true)
    ↔ (hasLabel (labelsRead gc pe) claYesLabel = true
      ∧ hasLabel (labelsRead gc pe) claNoLabel = true) := by
  rcases handlePR_cases AboutThisBot gc pe with ⟨h, _⟩ | ⟨pr, commit, hq, h1, h2⟩
  · simp [labelsAfter, h, applyCalls]
  · obtain ⟨a1, a2⟩ := labelsAfter_fetched AboutThisBot gc pe pr commit hq h1 h2
    rw [a1, a2]
    cases hasLabel (labelsRead gc pe) claYesLabel <;>
      cases hasLabel (labelsRead gc pe) claNoLabel <;>
      cases claReady commit (gc.IsMember (eventOrg pe) pr.User.Login).1 <;> simp

/-- Claim C6. The function `isPRChanged` is true exactly for the actions `opened`,
`reopened`, `synchronize` and `edited`; for an event with any other action `handlePR`
calls no client method (it has no effect at all) and returns nil. -/
theorem handlePR_ignores_other_actions (AboutThisBot : String) (gc : githubClient)
    (pe : github.PullRequestEvent) :
    (isPRChanged pe = true
      ↔ pe.Action = "opened" ∨ pe.Action = "reopened" ∨ pe.Action = "synchronize"
          ∨ pe.Action = "edited")
    ∧ (¬ Qualifying pe → (handlePR AboutThisBot gc pe).calls = []
          ∧ (handlePR AboutThisBot gc pe).effects = []
          ∧ (handlePR AboutThisBot gc pe).outcome = .returned none) := by
  refine ⟨isPRChanged_iff pe, fun h => ?_⟩
  have hq : isPRChanged pe = false := by
    rw [Bool.eq_false_iff]
    exact fun hq => h ((isPRChanged_iff pe).mp hq)
  simp [handlePR, hq, Run.calls]

/-- The filter of C6 at the action `closed`. -/
theorem handlePR_ignores_other_actions_witness :
    ¬ Qualifying (sampleEvent "closed")
    ∧ (handlePR "about" (fetchedClient outsideCommit (true, none) ([], none))
        (sampleEvent "closed")).calls = []
    ∧ (handlePR "about" (fetchedClient outsideCommit (true, none) ([], none))
        (sampleEvent "closed")).outcome = .returned none :=
  have h := (handlePR_ignores_other_actions "about"
    (fetchedClient outsideCommit (true, none) ([], none)) (sampleEvent "closed")).2 (by decide)
  ⟨by decide, h.1, h.2.2⟩

/-- Claim C7. For a qualifying event whose fetches succeed and a starting label set with at
most one of the two labels, after the mutations are applied exactly one of them is
present: `yes` when `claReady` is true, `no` when it is false. -/
theorem handlePR_reaches_target (AboutThisBot : String) (gc : githubClient)
    (pe : github.PullRequestEvent) (pr : github.PullRequest) (commit : github.CommitData)
    (hq : Qualifying pe)
    (hpr : gc.GetPullRequest (eventOrg pe) (eventRepo pe) (eventNumber pe) = (some pr, none))
    (hc : gc.GetCommit (eventOrg pe) (eventRepo pe) pr.Head.SHA = (some commit, none))
    (hone : ¬ (hasLabel (labelsRead gc pe) claYesLabel = true
      ∧ hasLabel (labelsRead gc pe) claNoLabel = true)) :
    hasLabel (labelsAfter AboutThisBot gc pe) claYesLabel
      = claReady commit (gc.IsMember (eventOrg pe) pr.User.Login).1
    ∧ hasLabel (labelsAfter AboutThisBot gc pe) claNoLabel
      = !claReady commit (gc.IsMember (eventOrg pe) pr.User.Login).1 := by
  replace hq : isPRChanged pe = true := (isPRChanged_iff pe).mpr hq
  obtain ⟨a1, a2⟩ := labelsAfter_fetched AboutThisBot gc pe pr commit hq hpr hc
  rw [a1, a2]
  revert hone
  cases hasLabel (labelsRead gc pe) claYesLabel <;>
    cases hasLabel (labelsRead gc pe) claNoLabel <;> simp

/-- The target of C7 at the test case "have label yes, is member, cla not ready". -/
theorem handlePR_reaches_target_witness :
    Qualifying (sampleEvent "edited")
    ∧ hasLabel (labelsAfter "about" (fetchedClient outsideCommit (true, none)
        ([claYesLabel], none)) (sampleEvent "edited")) claYesLabel = false
    ∧ hasLabel (labelsAfter "about" (fetchedClient outsideCommit (true, none)
        ([claYesLabel], none)) (sampleEvent "edited")) claNoLabel = true :=
  have h := handlePR_reaches_target "about"
    (fetchedClient outsideCommit (true, none) ([claYesLabel], none)) (sampleEvent "edited")
    samplePR outsideCommit (by decide) rfl rfl (by decide)
  ⟨by decide, h.1.trans (by decide), h.2.trans (by decide)⟩

set_option maxRecDepth 8000 in
/-- Claim C8, as stated, fails: `IsMember` returns an error together with the boolean
true, the commit is outside the trusted domain, and `handlePR` posts the comment and adds
the `no` label, where the table for `claReady = true` adds the `yes` label. -/
theorem isMember_error_counterexample :
    Qualifying (sampleEvent "opened")
    ∧ (fetchedClient outsideCommit (true, some "lookup failed") ([], none)).IsMember
        "caicloud" "bmj" = (true, some "lookup failed")
    ∧ (handlePR "about" (fetchedClient outsideCommit (true, some "lookup failed") ([], none))
        (sampleEvent "opened")).mutations
      = (transitionTable false false false).map
          (Mutation.toCall "about" "caicloud" "test-infra" 101)
    ∧ (handlePR "about" (fetchedClient outsideCommit (true, some "lookup failed") ([], none))
        (sampleEvent "opened")).mutations
      ≠ (transitionTable false false true).map
          (Mutation.toCall "about" "caicloud" "test-infra" 101) := by
  decide

/-- Claim C8, amended. When `IsMember` returns an error, `handlePR` logs it and goes by
the boolean returned with it: with false, `claReady` is forced to true and the mutations
are those of the table for `claReady = true`; with true, `claReady` is what the check of
the commit gives. -/
theorem isMember_error_uses_boolean (AboutThisBot : String) (gc : githubClient)
    (pe : github.PullRequestEvent) (pr : github.PullRequest) (commit : github.CommitData)
    (b : Bool) (err : Error)
    (hq : Qualifying pe)
    (hpr : gc.GetPullRequest (eventOrg pe) (eventRepo pe) (eventNumber pe) = (some pr, none))
    (hc : gc.GetCommit (eventOrg pe) (eventRepo pe) pr.Head.SHA = (some commit, none))
    (hm : gc.IsMember (eventOrg pe) pr.User.Login = (b, some err)) :
    Effect.log ⟨.error, some err, "Error from IsMember(%q of org %q).",
        [pr.User.Login, eventOrg pe]⟩ ∈ (handlePR AboutThisBot gc pe).effects
    ∧ claReady commit (gc.IsMember (eventOrg pe) pr.User.Login).1
        = (if b then commitReady commit else true)
    ∧ (handlePR AboutThisBot gc pe).mutations
        = (transitionTable (hasLabel (labelsRead gc pe) claYesLabel)
              (hasLabel (labelsRead gc pe) claNoLabel)
              (if b then commitReady commit else true)).map
            (Mutation.toCall AboutThisBot (eventOrg pe) (eventRepo pe) pr.Number) := by
  replace hq : isPRChanged pe = true := (isPRChanged_iff pe).mpr hq
  have h : claReady commit (gc.IsMember (eventOrg pe) pr.User.Login).1
      = (if b then commitReady commit else true) := by
    cases b <;> simp [claReady, hm]
  refine ⟨?_, h, ?_⟩
  · simp [handlePR, hq, hpr, hc, hm, logIf]
  · rw [handlePR_mutations AboutThisBot gc pe pr commit hq hpr hc, h]

/-- The amended C8 at a lookup that fails with the boolean false: the `yes` label is
added although the commit is outside the trusted domain. -/
theorem isMember_error_uses_boolean_witness :
    Qualifying (sampleEvent "opened")
    ∧ (handlePR "about" (fetchedClient outsideCommit (false, some "lookup failed") ([], none))
        (sampleEvent "opened")).mutations
      = [.AddLabel "caicloud" "test-infra" 101 claYesLabel] :=
  ⟨by decide,
   ((isMember_error_uses_boolean "about"
      (fetchedClient outsideCommit (false, some "lookup failed") ([], none))
      (sampleEvent "opened") samplePR outsideCommit false "lookup failed"
      (by decide) rfl rfl rfl).2.2).trans (by decide)⟩

/-- Claim C9, as stated, fails: `GetIssueLabels` returns an error together with a list
that holds the `yes` label, `claReady` is true, and `handlePR` issues no mutation, where
the table for an unlabeled pull request adds the `yes` label. -/
theorem getIssueLabels_error_counterexample :
    Qualifying (sampleEvent "opened")
    ∧ (fetchedClient insideCommit (true, none) ([claYesLabel], some "read failed")).GetIssueLabels
        "caicloud" "test-infra" 101 = ([⟨claYesLabel⟩], some "read failed")
    ∧ claReady insideCommit true = true
    ∧ (handlePR "about" (fetchedClient insideCommit (true, none)
        ([claYesLabel], some "read failed")) (sampleEvent "opened")).mutations = []
    ∧ (transitionTable false false true).map
          (Mutation.toCall "about" "caicloud" "test-infra" 101)
        = [.AddLabel "caicloud" "test-infra" 101 claYesLabel] := by
  decide

/-- Claim C9, amended. When `GetIssueLabels` returns an error, `handlePR` logs a warning
and scans the label list returned with the error: the mutations are those of the table
for the labels of that list, and when that list is empty both flags are false and the
mutations are those of the table for an unlabeled pull request. -/
theorem getIssueLabels_error_uses_list (AboutThisBot : String) (gc : githubClient)
    (pe : github.PullRequestEvent) (pr : github.PullRequest) (commit : github.CommitData)
    (ls : List github.Label) (err : Error)
    (hq : Qualifying pe)
    (hpr : gc.GetPullRequest (eventOrg pe) (eventRepo pe) (eventNumber pe) = (some pr, none))
    (hc : gc.GetCommit (eventOrg pe) (eventRepo pe) pr.Head.SHA = (some commit, none))
    (hl : gc.GetIssueLabels (eventOrg pe) (eventRepo pe) (eventNumber pe) = (ls, some err)) :
    Effect.log ⟨.warning, none, "while retrieving labels, error: %v", [err]⟩
        ∈ (handlePR AboutThisBot gc pe).effects
    ∧ scanLabels ls (false, false) = (hasLabel ls claYesLabel, hasLabel ls claNoLabel)
    ∧ (handlePR AboutThisBot gc pe).mutations
        = (transitionTable (hasLabel ls claYesLabel) (hasLabel ls claNoLabel)
              (claReady commit (gc.IsMember (eventOrg pe) pr.User.Login).1)).map
            (Mutation.toCall AboutThisBot (eventOrg pe) (eventRepo pe) pr.Number)
    ∧ (ls = [] →
        scanLabels ls (false, false) = (false, false)
        ∧ (handlePR AboutThisBot gc pe).mutations
          = (transitionTable false false
                (claReady commit (gc.IsMember (eventOrg pe) pr.User.Login).1)).map
              (Mutation.toCall AboutThisBot (eventOrg pe) (eventRepo pe) pr.Number)) := by
  replace hq : isPRChanged pe = true := (isPRChanged_iff pe).mpr hq
  have hm := handlePR_mutations AboutThisBot gc pe pr commit hq hpr hc
  have hr : labelsRead gc pe = ls := by simp [labelsRead, hl]
  rw [hr] at hm
  refine ⟨?_, by simp [scanLabels_eq], hm, ?_⟩
  · simp [handlePR, hq, hpr, hc, hl, logIf]
  · rintro rfl
    exact ⟨rfl, hm⟩

/-- The amended C9 at a read that fails with an empty list, on the test case "no label,
is member, cla ready". -/
theorem getIssueLabels_error_uses_list_witness :
    Qualifying (sampleEvent "opened")
    ∧ (handlePR "about" (fetchedClient insideCommit (true, none) ([], some "read failed"))
        (sampleEvent "opened")).mutations
      = [.AddLabel "caicloud" "test-infra" 101 claYesLabel] :=
  ⟨by decide,
   (((getIssueLabels_error_uses_list "about"
      (fetchedClient insideCommit (true, none) ([], some "read failed"))
      (sampleEvent "opened") samplePR insideCommit [] "read failed"
      (by decide) rfl rfl rfl).2.2.2 rfl).2).trans (by decide)⟩

/-- Claim C10. For a qualifying event: when `GetPullRequest` returns an error, that call
is the only client call and `handlePR` returns nil; when `GetPullRequest` succeeds and
`GetCommit` returns an error, these two calls are the only client calls and `handlePR`
returns nil. -/
theorem handlePR_aborts_on_fetch_error (AboutThisBot : String) (gc : githubClient)
    (pe : github.PullRequestEvent) (hq : Qualifying pe) :
    (∀ (res : Option github.PullRequest) (err : Error),
        gc.GetPullRequest (eventOrg pe) (eventRepo pe) (eventNumber pe) = (res, some err) →
        (handlePR AboutThisBot gc pe).calls
            = [.GetPullRequest (eventOrg pe) (eventRepo pe) (eventNumber pe)]
          ∧ (handlePR AboutThisBot gc pe).outcome = .returned none)
    ∧ (∀ (pr : github.PullRequest) (res : Option github.CommitData) (err : Error),
        gc.GetPullRequest (eventOrg pe) (eventRepo pe) (eventNumber pe) = (some pr, none) →
        gc.GetCommit (eventOrg pe) (eventRepo pe) pr.Head.SHA = (res, some err) →
        (handlePR AboutThisBot gc pe).calls
            = [.GetPullRequest (eventOrg pe) (eventRepo pe) (eventNumber pe),
               .GetCommit (eventOrg pe) (eventRepo pe) pr.Head.SHA]
          ∧ (handlePR AboutThisBot gc pe).outcome = .returned none) := by
  replace hq : isPRChanged pe = true := (isPRChanged_iff pe).mpr hq
  constructor
  · intro res err hpr
    simp [handlePR, hq, hpr, Run.calls]
  · intro pr res err hpr hc
    simp [handlePR, hq, hpr, hc, Run.calls]

/-- The aborts of C10: a failing `GetPullRequest` that still returns a record, and a
failing `GetCommit` after a successful `GetPullRequest`. -/
theorem handlePR_aborts_on_fetch_error_witness :
    Qualifying (sampleEvent "reopened")
    ∧ (handlePR "about" (sampleClient (some samplePR, some "no such pull request")
          (some outsideCommit, none) (true, none) ([], none)) (sampleEvent "reopened")).calls
        = [.GetPullRequest "caicloud" "test-infra" 101]
    ∧ (handlePR "about" (sampleClient (some samplePR, none) (none, some "no such commit")
          (true, none) ([], none)) (sampleEvent "reopened")).calls
        = [.GetPullRequest "caicloud" "test-infra" 101,
           .GetCommit "caicloud" "test-infra" "a1a1"] :=
  ⟨by decide,
   ((handlePR_aborts_on_fetch_error "about"
      (sampleClient (some samplePR, some "no such pull request") (some outsideCommit, none)
        (true, none) ([], none)) (sampleEvent "reopened") (by decide)).1
      (some samplePR) "no such pull request" rfl).1,
   ((handlePR_aborts_on_fetch_error "about"
      (sampleClient (some samplePR, none) (none, some "no such commit") (true, none)
        ([], none)) (sampleEvent "reopened") (by decide)).2
      samplePR none "no such commit" rfl rfl).1⟩

/-- Claim C11. For clients that return the same results from the four fetches, whatever
their `AddLabel`, `RemoveLabel` and `CreateComment` return, `handlePR` attempts the same
mutation calls with the same arguments in the same order (and makes the same calls
altogether): an error of a mutation neither stops the next one nor adds one. -/
theorem mutations_independent_of_their_errors (AboutThisBot : String) (gc gc2 : githubClient)
    (pe : github.PullRequestEvent)
    (hpr : gc2.GetPullRequest = gc.GetPullRequest)
    (hc : gc2.GetCommit = gc.GetCommit)
    (hm : gc2.IsMember = gc.IsMember)
    (hl : gc2.GetIssueLabels = gc.GetIssueLabels) :
    (handlePR AboutThisBot gc2 pe).mutations = (handlePR AboutThisBot gc pe).mutations
    ∧ (handlePR AboutThisBot gc2 pe).calls = (handlePR AboutThisBot gc pe).calls := by
  have h := (handlePR_calls_congr AboutThisBot gc gc2 pe hpr hc hm
    (by simp [labelsRead, hl]) (by simp [labelsRead, hl])).1
  exact ⟨by simp [Run.mutations, h], h⟩

set_option maxRecDepth 8000 in
/-- The independence of C11 on the test case "have label yes, is member, cla not ready" when
all three mutations fail: the three of them are attempted all the same, and the failures
show in the log only. -/
theorem mutations_independent_of_their_errors_witness :
    (handlePR "about" (withMutationErrors
        (fetchedClient outsideCommit (true, none) ([claYesLabel], none))
        (some "comment failed") (some "add failed") (some "remove failed"))
      (sampleEvent "edited")).mutations
      = [.RemoveLabel "caicloud" "test-infra" 101 claYesLabel,
         .CreateComment "caicloud" "test-infra" 101 (commentBody "about"),
         .AddLabel "caicloud" "test-infra" 101 claNoLabel]
    ∧ (handlePR "about" (withMutationErrors
        (fetchedClient outsideCommit (true, none) ([claYesLabel], none))
        (some "comment failed") (some "add failed") (some "remove failed"))
      (sampleEvent "edited")).effects
      ≠ (handlePR "about" (fetchedClient outsideCommit (true, none) ([claYesLabel], none))
      (sampleEvent "edited")).effects :=
  ⟨((mutations_independent_of_their_errors "about"
      (fetchedClient outsideCommit (true, none) ([claYesLabel], none))
      (withMutationErrors (fetchedClient outsideCommit (true, none) ([claYesLabel], none))
        (some "comment failed") (some "add failed") (some "remove failed"))
      (sampleEvent "edited") rfl rfl rfl rfl).1).trans (by decide),
   by decide⟩

/-- Claim C12, as stated, fails: a client whose `GetPullRequest` returns a nil record with a
nil error makes `handlePR` dereference nil at line 83, and one whose `GetCommit` does so
makes it dereference nil at line 95; in neither case does `handlePR` return nil. -/
theorem handlePR_returns_nil_counterexample :
    Qualifying (sampleEvent "opened")
    ∧ (sampleClient (none, none) (some outsideCommit, none) (true, none) ([], none)).GetPullRequest
        "caicloud" "test-infra" 101 = (none, none)
    ∧ (handlePR "about" (sampleClient (none, none) (some outsideCommit, none) (true, none)
        ([], none)) (sampleEvent "opened")).outcome = .panicked
    ∧ (handlePR "about" (sampleClient (none, none) (some outsideCommit, none) (true, none)
        ([], none)) (sampleEvent "opened")).outcome ≠ .returned none
    ∧ (sampleClient (some samplePR, none) (none, none) (true, none) ([], none)).GetCommit
        "caicloud" "test-infra" "a1a1" = (none, none)
    ∧ (handlePR "about" (sampleClient (some samplePR, none) (none, none) (true, none)
        ([], none)) (sampleEvent "opened")).outcome = .panicked
    ∧ (handlePR "about" (sampleClient (some samplePR, none) (none, none) (true, none)
        ([], none)) (sampleEvent "opened")).outcome ≠ .returned none := by
  decide

/-- Claim C12, amended. For every event and every client whose `GetPullRequest` and
`GetCommit` return a record whenever they return no error, whatever errors the seven
client methods return, `handlePR` returns nil; and for no client at all does `handlePR`
return an error that is not nil. -/
theorem handlePR_returns_nil (AboutThisBot : String) (gc : githubClient)
    (pe : github.PullRequestEvent) :
    (ReturnsRecords gc → (handlePR AboutThisBot gc pe).outcome = .returned none)
    ∧ ∀ err : Error, (handlePR AboutThisBot gc pe).outcome ≠ .returned (some err) := by
  rcases handlePR_run_cases AboutThisBot gc pe with ⟨hq, a, b⟩ | ⟨res, err, hq, hpr, a, b⟩
    | ⟨hq, hpr, a, b⟩ | ⟨pr, res, err, hq, hpr, hc, a, b⟩ | ⟨pr, hq, hpr, hc, a, b⟩
    | ⟨pr, commit, hq, hpr, hc⟩
  · simp [b]
  · simp [b]
  · refine ⟨fun hw => ?_, by simp [b]⟩
    exact absurd (by rw [hpr]) (hw.1 (eventOrg pe) (eventRepo pe) (eventNumber pe)
      (by rw [hpr]))
  · simp [b]
  · refine ⟨fun hw => ?_, by simp [b]⟩
    exact absurd (by rw [hc]) (hw.2 (eventOrg pe) (eventRepo pe) pr.Head.SHA (by rw [hc]))
  · simp [(handlePR_fetched AboutThisBot gc pe pr commit hq hpr hc).2]

/-- The nil of C12 when `IsMember`, `GetIssueLabels` and the three mutations all fail. -/
theorem handlePR_returns_nil_witness :
    (handlePR "about" (withMutationErrors
        (fetchedClient outsideCommit (true, some "lookup failed")
          ([claYesLabel], some "read failed"))
        (some "comment failed") (some "add failed") (some "remove failed"))
      (sampleEvent "edited")).outcome = .returned none :=
  (handlePR_returns_nil "about" (withMutationErrors
        (fetchedClient outsideCommit (true, some "lookup failed")
          ([claYesLabel], some "read failed"))
        (some "comment failed") (some "add failed") (some "remove failed"))
      (sampleEvent "edited")).1
    ⟨fun _ _ _ _ => by simp [withMutationErrors, fetchedClient, sampleClient],
     fun _ _ _ _ => by simp [withMutationErrors, fetchedClient, sampleClient]⟩

/-- Claim C13. For every string, `emailRe.MatchString` is true exactly when the string
ends with `@caicloud.io`, character for character: a newline before the suffix, an empty
local part or upper-case letters make no exception. -/
theorem emailRe_is_suffix_test (s : String) :
    (emailRe.MatchString s = true ↔ "@caicloud.io".toList <:+ s.toList)
    ∧ emailRe.MatchString "first line\nbmj@caicloud.io" = true
    ∧ emailRe.MatchString "@caicloud.io" = true
    ∧ emailRe.MatchString "bmj@CAICLOUD.IO" = false
    ∧ emailRe.MatchString "bmj@caicloud.io\n" = false :=
  ⟨emailRe_MatchString_iff s, by decide, by decide, by decide, by decide⟩

/-- Claim C14. Whatever the event and the client, each of the seven client methods is
called at most once in an invocation, so that at most two label mutations and at most one
comment are made, and no call is made a second time. -/
theorem handlePR_calls_each_method_at_most_once (AboutThisBot : String) (gc : githubClient)
    (pe : github.PullRequestEvent) :
    (∀ m : Method, countCalls m (handlePR AboutThisBot gc pe).calls ≤ 1)
    ∧ countCalls .AddLabel (handlePR AboutThisBot gc pe).calls
        + countCalls .RemoveLabel (handlePR AboutThisBot gc pe).calls ≤ 2
    ∧ (handlePR AboutThisBot gc pe).mutations.length
        = countCalls .AddLabel (handlePR AboutThisBot gc pe).calls
          + countCalls .RemoveLabel (handlePR AboutThisBot gc pe).calls
          + countCalls .CreateComment (handlePR AboutThisBot gc pe).calls := by
  have key : (∀ m : Method, countCalls m (handlePR AboutThisBot gc pe).calls ≤ 1)
      ∧ (handlePR AboutThisBot gc pe).mutations.length
        = countCalls .AddLabel (handlePR AboutThisBot gc pe).calls
          + countCalls .RemoveLabel (handlePR AboutThisBot gc pe).calls
          + countCalls .CreateComment (handlePR AboutThisBot gc pe).calls := by
    unfold Run.mutations
    rcases handlePR_run_cases AboutThisBot gc pe with ⟨hq, a, b⟩ | ⟨res, err, hq, hpr, a, b⟩
      | ⟨hq, hpr, a, b⟩ | ⟨pr, res, err, hq, hpr, hc, a, b⟩ | ⟨pr, hq, hpr, hc, a, b⟩
      | ⟨pr, commit, hq, hpr, hc⟩
    · rw [a]
      exact ⟨fun m => by simp [countCalls], by simp [countCalls]⟩
    · rw [a]
      exact ⟨fun m => by cases m <;> simp [countCalls, Call.method],
        by simp [countCalls, Call.method, Call.isMutation]⟩
    · rw [a]
      exact ⟨fun m => by cases m <;> simp [countCalls, Call.method],
        by simp [countCalls, Call.method, Call.isMutation]⟩
    · rw [a]
      exact ⟨fun m => by cases m <;> simp [countCalls, Call.method],
        by simp [countCalls, Call.method, Call.isMutation]⟩
    · rw [a]
      exact ⟨fun m => by cases m <;> simp [countCalls, Call.method],
        by simp [countCalls, Call.method, Call.isMutation]⟩
    · rw [(handlePR_fetched AboutThisBot gc pe pr commit hq hpr hc).1]
      generalize hasLabel (labelsRead gc pe) claYesLabel = y
      generalize hasLabel (labelsRead gc pe) claNoLabel = n
      generalize claReady commit (gc.IsMember (eventOrg pe) pr.User.Login).1 = r
      constructor
      · intro m
        cases y <;> cases n <;> cases r <;> cases m <;>
          simp [countCalls, Call.method, transitionTable, Mutation.toCall]
      · cases y <;> cases n <;> cases r <;>
          simp [countCalls, Call.method, Call.isMutation, transitionTable, Mutation.toCall]
  exact ⟨key.1, Nat.add_le_add (key.1 _) (key.1 _), key.2⟩

/-- Claim C15. Two label lists in which the exact name `caicloud-cla: yes` occurs or not
alike, and the exact name `caicloud-cla: no` occurs or not alike, lead `handlePR` to the
same mutation calls (and the same calls altogether), the pull request, commit and
membership answers being the same: nothing else about the lists counts. -/
theorem labels_count_by_presence_only (AboutThisBot : String) (gc gc2 : githubClient)
    (pe : github.PullRequestEvent)
    (hpr : gc2.GetPullRequest = gc.GetPullRequest)
    (hc : gc2.GetCommit = gc.GetCommit)
    (hm : gc2.IsMember = gc.IsMember)
    (hy : hasLabel (labelsRead gc2 pe) claYesLabel = hasLabel (labelsRead gc pe) claYesLabel)
    (hn : hasLabel (labelsRead gc2 pe) claNoLabel = hasLabel (labelsRead gc pe) claNoLabel) :
    (handlePR AboutThisBot gc2 pe).mutations = (handlePR AboutThisBot gc pe).mutations
    ∧ (handlePR AboutThisBot gc2 pe).calls = (handlePR AboutThisBot gc pe).calls := by
  have h := (handlePR_calls_congr AboutThisBot gc gc2 pe hpr hc hm hy hn).1
  exact ⟨by simp [Run.mutations, h], h⟩

/-- The presence rule of C15: other labels, a duplicate, another order, and names that
differ from the `yes` label by case or by a blank change nothing. -/
theorem labels_count_by_presence_only_witness :
    (handlePR "about" (fetchedClient insideCommit (true, none)
        (["lgtm", "Caicloud-CLA: yes", claNoLabel, " caicloud-cla: yes", claNoLabel], none))
      (sampleEvent "edited")).mutations
      = (handlePR "about" (fetchedClient insideCommit (true, none) ([claNoLabel], none))
      (sampleEvent "edited")).mutations
    ∧ (handlePR "about" (fetchedClient insideCommit (true, none) ([claNoLabel], none))
      (sampleEvent "edited")).mutations
      = [.RemoveLabel "caicloud" "test-infra" 101 claNoLabel,
         .AddLabel "caicloud" "test-infra" 101 claYesLabel] :=
  ⟨(labels_count_by_presence_only "about"
      (fetchedClient insideCommit (true, none) ([claNoLabel], none))
      (fetchedClient insideCommit (true, none)
        (["lgtm", "Caicloud-CLA: yes", claNoLabel, " caicloud-cla: yes", claNoLabel], none))
      (sampleEvent "edited") rfl rfl rfl (by decide) (by decide)).1,
   by decide⟩

/-- Claim C16. For a qualifying event whose fetches succeed and for which the boolean of
`IsMember` is false, `handlePR` makes no `CreateComment` call, no `AddLabel` call with the
`no` label and no `RemoveLabel` call with the `yes` label, and the `yes` label is present
once its mutations are applied. -/
theorem non_member_is_never_refused (AboutThisBot : String) (gc : githubClient)
    (pe : github.PullRequestEvent) (pr : github.PullRequest) (commit : github.CommitData)
    (hq : Qualifying pe)
    (hpr : gc.GetPullRequest (eventOrg pe) (eventRepo pe) (eventNumber pe) = (some pr, none))
    (hc : gc.GetCommit (eventOrg pe) (eventRepo pe) pr.Head.SHA = (some commit, none))
    (hm : (gc.IsMember (eventOrg pe) pr.User.Login).1 = false) :
    (∀ owner repo number body,
        Call.CreateComment owner repo number body ∉ (handlePR AboutThisBot gc pe).calls)
    ∧ (∀ owner repo number,
        Call.AddLabel owner repo number claNoLabel ∉ (handlePR AboutThisBot gc pe).calls)
    ∧ (∀ owner repo number,
        Call.RemoveLabel owner repo number claYesLabel ∉ (handlePR AboutThisBot gc pe).calls)
    ∧ hasLabel (labelsAfter AboutThisBot gc pe) claYesLabel = true := by
  replace hq : isPRChanged pe = true := (isPRChanged_iff pe).mpr hq
  have hr : claReady commit (gc.IsMember (eventOrg pe) pr.User.Login).1 = true := by
    simp [claReady, hm]
  have hyn : ¬ claYesLabel = claNoLabel := by decide
  have hny : ¬ claNoLabel = claYesLabel := by decide
  refine ⟨?_, ?_, ?_, ?_⟩
  · intro owner repo number body
    rw [(handlePR_fetched AboutThisBot gc pe pr commit hq hpr hc).1, hr]
    cases hasLabel (labelsRead gc pe) claYesLabel <;>
      cases hasLabel (labelsRead gc pe) claNoLabel <;>
      simp [transitionTable, Mutation.toCall]
  · intro owner repo number
    rw [(handlePR_fetched AboutThisBot gc pe pr commit hq hpr hc).1, hr]
    cases hasLabel (labelsRead gc pe) claYesLabel <;>
      cases hasLabel (labelsRead gc pe) claNoLabel <;>
      simp [transitionTable, Mutation.toCall, hyn, hny]
  · intro owner repo number
    rw [(handlePR_fetched AboutThisBot gc pe pr commit hq hpr hc).1, hr]
    cases hasLabel (labelsRead gc pe) claYesLabel <;>
      cases hasLabel (labelsRead gc pe) claNoLabel <;>
      simp [transitionTable, Mutation.toCall, hyn, hny]
  · rw [(labelsAfter_fetched AboutThisBot gc pe pr commit hq hpr hc).1, hr]
    simp

/-- The exemption of C16 at the test case "no label, not member": the commit is outside
the trusted domain and the only mutation is the `yes` label. -/
theorem non_member_is_never_refused_witness :
    Qualifying (sampleEvent "opened")
    ∧ (handlePR "about" (fetchedClient outsideCommit (false, none) ([], none))
        (sampleEvent "opened")).mutations
      = [.AddLabel "caicloud" "test-infra" 101 claYesLabel]
    ∧ hasLabel (labelsAfter "about" (fetchedClient outsideCommit (false, none) ([], none))
        (sampleEvent "opened")) claYesLabel = true :=
  ⟨by decide, by decide,
   (non_member_is_never_refused "about" (fetchedClient outsideCommit (false, none) ([], none))
      (sampleEvent "opened") samplePR outsideCommit (by decide) rfl rfl rfl).2.2.2⟩

/-- Claim C17. In every invocation `CreateComment` is called exactly when `AddLabel` is
called with the `no` label; when the fetches succeed this is exactly when `claReady` is
false and the `no` label is not among the labels read; and a `CreateComment` call comes
immediately before that `AddLabel`, on the same pull request, its body being the fixed
text with the footer in it, whatever the pull request, the commit and the labels. -/
theorem comment_goes_with_no_label (AboutThisBot : String) (gc : githubClient)
    (pe : github.PullRequestEvent) :
    ((∃ owner repo number body,
        Call.CreateComment owner repo number body ∈ (handlePR AboutThisBot gc pe).calls)
      ↔ (∃ owner repo number,
        Call.AddLabel owner repo number claNoLabel ∈ (handlePR AboutThisBot gc pe).calls))
    ∧ (∀ pr commit, Qualifying pe →
        gc.GetPullRequest (eventOrg pe) (eventRepo pe) (eventNumber pe) = (some pr, none) →
        gc.GetCommit (eventOrg pe) (eventRepo pe) pr.Head.SHA = (some commit, none) →
        ((∃ owner repo number,
            Call.AddLabel owner repo number claNoLabel ∈ (handlePR AboutThisBot gc pe).calls)
          ↔ (claReady commit (gc.IsMember (eventOrg pe) pr.User.Login).1 = false
              ∧ hasLabel (labelsRead gc pe) claNoLabel = false)))
    ∧ (∀ owner repo number body,
        Call.CreateComment owner repo number body ∈ (handlePR AboutThisBot gc pe).calls →
        body = commentBody AboutThisBot
        ∧ ∃ before, (handlePR AboutThisBot gc pe).calls
            = before ++ [.CreateComment owner repo number body,
                         .AddLabel owner repo number claNoLabel]) := by
  have hfetched : ∀ pr commit, isPRChanged pe = true →
      gc.GetPullRequest (eventOrg pe) (eventRepo pe) (eventNumber pe) = (some pr, none) →
      gc.GetCommit (eventOrg pe) (eventRepo pe) pr.Head.SHA = (some commit, none) →
      ((∃ owner repo number body,
          Call.CreateComment owner repo number body ∈ (handlePR AboutThisBot gc pe).calls)
        ↔ (claReady commit (gc.IsMember (eventOrg pe) pr.User.Login).1 = false
            ∧ hasLabel (labelsRead gc pe) claNoLabel = false))
      ∧ ((∃ owner repo number,
          Call.AddLabel owner repo number claNoLabel ∈ (handlePR AboutThisBot gc pe).calls)
        ↔ (claReady commit (gc.IsMember (eventOrg pe) pr.User.Login).1 = false
            ∧ hasLabel (labelsRead gc pe) claNoLabel = false)) := by
    intro pr commit hq hpr hc
    have ht := table_comment_iff AboutThisBot (eventOrg pe) (eventRepo pe) pr.Number
      (hasLabel (labelsRead gc pe) claYesLabel) (hasLabel (labelsRead gc pe) claNoLabel)
      (claReady commit (gc.IsMember (eventOrg pe) pr.User.Login).1)
    rw [(handlePR_fetched AboutThisBot gc pe pr commit hq hpr hc).1]
    simpa using ht
  refine ⟨?_, ?_, ?_⟩
  · rcases handlePR_run_cases AboutThisBot gc pe with ⟨hq, a, b⟩ | ⟨res, err, hq, hpr, a, b⟩
      | ⟨hq, hpr, a, b⟩ | ⟨pr, res, err, hq, hpr, hc, a, b⟩ | ⟨pr, hq, hpr, hc, a, b⟩
      | ⟨pr, commit, hq, hpr, hc⟩
    · simp [a]
    · simp [a]
    · simp [a]
    · simp [a]
    · simp [a]
    · obtain ⟨h1, h2⟩ := hfetched pr commit hq hpr hc
      exact h1.trans h2.symm
  · intro pr commit hq hpr hc
    exact (hfetched pr commit ((isPRChanged_iff pe).mpr hq) hpr hc).2
  · intro owner repo number body h
    rcases handlePR_run_cases AboutThisBot gc pe with ⟨hq, a, b⟩ | ⟨res, err, hq, hpr, a, b⟩
      | ⟨hq, hpr, a, b⟩ | ⟨pr, res, err, hq, hpr, hc, a, b⟩ | ⟨pr, hq, hpr, hc, a, b⟩
      | ⟨pr, commit, hq, hpr, hc⟩
    · simp [a] at h
    · simp [a] at h
    · simp [a] at h
    · simp [a] at h
    · simp [a] at h
    · rw [(handlePR_fetched AboutThisBot gc pe pr commit hq hpr hc).1] at h ⊢
      have h2 : Call.CreateComment owner repo number body
          ∈ (transitionTable (hasLabel (labelsRead gc pe) claYesLabel)
              (hasLabel (labelsRead gc pe) claNoLabel)
              (claReady commit (gc.IsMember (eventOrg pe) pr.User.Login).1)).map
            (Mutation.toCall AboutThisBot (eventOrg pe) (eventRepo pe) pr.Number) := by
        simpa using h
      obtain ⟨hb, before, hbefore⟩ := table_comment _ _ _ _ _ _ _ _ _ _ _ h2
      refine ⟨hb, [.GetPullRequest (eventOrg pe) (eventRepo pe) (eventNumber pe),
        .GetCommit (eventOrg pe) (eventRepo pe) pr.Head.SHA,
        .IsMember (eventOrg pe) pr.User.Login,
        .GetIssueLabels (eventOrg pe) (eventRepo pe) (eventNumber pe)] ++ before, ?_⟩
      rw [hbefore, List.append_assoc]

set_option maxRecDepth 8000 in
/-- The comment of C17 at the test case "have label yes, is member, cla not ready". -/
theorem comment_goes_with_no_label_witness :
    Qualifying (sampleEvent "edited")
    ∧ Call.CreateComment "caicloud" "test-infra" 101 (commentBody "about")
        ∈ (handlePR "about" (fetchedClient outsideCommit (true, none) ([claYesLabel], none))
            (sampleEvent "edited")).calls
    ∧ ∃ before, (handlePR "about" (fetchedClient outsideCommit (true, none)
          ([claYesLabel], none)) (sampleEvent "edited")).calls
        = before ++ [.CreateComment "caicloud" "test-infra" 101 (commentBody "about"),
                     .AddLabel "caicloud" "test-infra" 101 claNoLabel] :=
  ⟨by decide, by decide,
   ((comment_goes_with_no_label "about"
      (fetchedClient outsideCommit (true, none) ([claYesLabel], none))
      (sampleEvent "edited")).2.2 "caicloud" "test-infra" 101 (commentBody "about")
      (by decide)).2⟩

/-- Claim C18. For a qualifying event whose fetches succeed, every `AddLabel`, `RemoveLabel`
and `CreateComment` call is addressed to the organization and repository of the base
repository of the event and to the `Number` of the record `GetPullRequest` returned, while
`GetPullRequest` and `GetIssueLabels` are called with the number of the event; so a mutation
is addressed to the pull request whose labels were read exactly when the two numbers are
equal. -/
theorem mutations_use_fetched_number (AboutThisBot : String) (gc : githubClient)
    (pe : github.PullRequestEvent) (pr : github.PullRequest) (commit : github.CommitData)
    (hq : Qualifying pe)
    (hpr : gc.GetPullRequest (eventOrg pe) (eventRepo pe) (eventNumber pe) = (some pr, none))
    (hc : gc.GetCommit (eventOrg pe) (eventRepo pe) pr.Head.SHA = (some commit, none)) :
    (∀ c ∈ (handlePR AboutThisBot gc pe).mutations,
        c.target = some (eventOrg pe, eventRepo pe, pr.Number))
    ∧ (∀ c ∈ (handlePR AboutThisBot gc pe).calls,
        c.method = .GetPullRequest ∨ c.method = .GetIssueLabels →
        c = .GetPullRequest (eventOrg pe) (eventRepo pe) (eventNumber pe)
          ∨ c = .GetIssueLabels (eventOrg pe) (eventRepo pe) (eventNumber pe))
    ∧ Call.GetPullRequest (eventOrg pe) (eventRepo pe) (eventNumber pe)
        ∈ (handlePR AboutThisBot gc pe).calls
    ∧ Call.GetIssueLabels (eventOrg pe) (eventRepo pe) (eventNumber pe)
        ∈ (handlePR AboutThisBot gc pe).calls
    ∧ (∀ c ∈ (handlePR AboutThisBot gc pe).mutations,
        (c.target = some (eventOrg pe, eventRepo pe, eventNumber pe)
          ↔ pr.Number = eventNumber pe)) := by
  replace hq : isPRChanged pe = true := (isPRChanged_iff pe).mpr hq
  have htarget : ∀ c ∈ (handlePR AboutThisBot gc pe).mutations,
      c.target = some (eventOrg pe, eventRepo pe, pr.Number) := by
    rw [handlePR_mutations AboutThisBot gc pe pr commit hq hpr hc]
    intro c hcm
    obtain ⟨m, _, rfl⟩ := List.mem_map.mp hcm
    cases m <;> rfl
  refine ⟨htarget, ?_, ?_, ?_, ?_⟩
  · rw [(handlePR_fetched AboutThisBot gc pe pr commit hq hpr hc).1]
    intro c hcm hmeth
    rw [List.mem_append] at hcm
    rcases hcm with hcm | hcm
    · simp at hcm
      rcases hcm with rfl | rfl | rfl | rfl <;> simp [Call.method] at hmeth ⊢
    · obtain ⟨m, _, rfl⟩ := List.mem_map.mp hcm
      cases m <;> simp [Mutation.toCall, Call.method] at hmeth
  · rw [(handlePR_fetched AboutThisBot gc pe pr commit hq hpr hc).1]
    simp
  · rw [(handlePR_fetched AboutThisBot gc pe pr commit hq hpr hc).1]
    simp
  · intro c hcm
    rw [htarget c hcm]
    simp

/-- The numbers of C18 in the setting of the tests: the event carries the number 0 and
the fetched record the number 101; the labels are read on 0 and written on 101. -/
theorem mutations_use_fetched_number_witness :
    Qualifying (testEvent "opened")
    ∧ (handlePR "about" (fetchedClient outsideCommit (false, none) ([], none))
        (testEvent "opened")).calls
      = [.GetPullRequest "" "" 0, .GetCommit "" "" "a1a1", .IsMember "" "bmj",
         .GetIssueLabels "" "" 0, .AddLabel "" "" 101 claYesLabel]
    ∧ ∀ c ∈ (handlePR "about" (fetchedClient outsideCommit (false, none) ([], none))
        (testEvent "opened")).mutations, c.target = some ("", "", 101) :=
  ⟨by decide, by decide,
   (mutations_use_fetched_number "about" (fetchedClient outsideCommit (false, none) ([], none))
      (testEvent "opened") samplePR outsideCommit (by decide) rfl rfl).1⟩

end caicloudcla
